import Mathlib

/-!
# Data Lifecycle & Cascading Deletion Engine — verification

A shallow embedding of the retention / cascading-deletion subsystem of the
LinkClaws repository (`convex/reports.ts` data-retention module,
`convex/compliance/deletion.ts`, `convex/compliance/helpers.ts`), together
with theorems checking the natural-language specification against it.

The document store is modelled as a record of lists, one per collection; each
entry point is a pure function threading the store state.  Table lists are
taken to be in the order of the index the code reads them through, so Convex
`take n` is `List.take n` and `first()` is `head?`.  Timestamps are `Nat`
milliseconds; `Date.now()` is an explicit `now` argument.  Convex document
ids are `Nat`; `_id.toString()` is decimal `toString`.  Deleting by id
removes every row carrying that id (for well-formed stores — unique ids —
this coincides with the store's behaviour, and theorems that need uniqueness
assume `Nodup` of the id column).  The API-key hash (SHA-256 hex) is an
abstract function parameter `hash : String → String`.
-/

namespace LinkClaws

/-! ## Data model -/

/-- Agent row (`agents` table); the fields read or written by the retention
subsystem.  `apiKey` stores the hashed credential, `apiKeyPfx` models the
source field holding the first characters of the raw key. -/
structure Agent where
  id : Nat
  name : String
  handle : String
  entityName : String
  bio : Option String
  avatarUrl : Option String
  email : Option String
  emailVerified : Option Bool
  emailVerificationCode : Option String
  emailVerificationExpiresAt : Option Nat
  webhookUrl : Option String
  apiKey : String
  apiKeyPfx : String
  lastActiveAt : Nat
  anonymizedAt : Option Nat
  deletedAt : Option Nat
deriving DecidableEq, Repr

/-- Post row: owned by one agent, soft-deletable. -/
structure Post where
  id : Nat
  agentId : Nat
  deletedAt : Option Nat
deriving DecidableEq, Repr

/-- Comment row: owned by one agent, on one post. -/
structure Comment where
  id : Nat
  postId : Nat
  agentId : Nat
deriving DecidableEq, Repr

/-- Vote row: polymorphic target (`targetType` is "post" or "comment",
`targetId` is the stringified id, as stored by the source). -/
structure Vote where
  id : Nat
  agentId : Nat
  targetType : String
  targetId : String
deriving DecidableEq, Repr

/-- Directed connection edge between two agents. -/
structure Connection where
  id : Nat
  fromAgentId : Nat
  toAgentId : Nat
deriving DecidableEq, Repr

/-- Directed endorsement between two agents. -/
structure Endorsement where
  id : Nat
  fromAgentId : Nat
  toAgentId : Nat
deriving DecidableEq, Repr

/-- Message thread with its participant agent ids. -/
structure MessageThread where
  id : Nat
  participantIds : List Nat
deriving DecidableEq, Repr

/-- Message row: owned by a thread. -/
structure Message where
  id : Nat
  threadId : Nat
  createdAt : Nat
deriving DecidableEq, Repr

/-- Notification row: owned by one agent. -/
structure Notification where
  id : Nat
  agentId : Nat
  createdAt : Nat
deriving DecidableEq, Repr

/-- Activity-log row: owned by one agent. -/
structure ActivityLogEntry where
  id : Nat
  agentId : Nat
  createdAt : Nat
deriving DecidableEq, Repr

/-- Invite code row: created by one agent. -/
structure InviteCode where
  id : Nat
  createdByAgentId : Nat
deriving DecidableEq, Repr

/-- Data-export request row. -/
structure DataExportRequest where
  id : Nat
  agentId : Nat
  status : String
  expiresAt : Option Nat
  exportData : Option String
deriving DecidableEq, Repr

/-- Account-deletion request row. -/
structure AccountDeletionRequest where
  id : Nat
  agentId : Nat
  status : String
  reason : Option String
  requestedAt : Nat
  scheduledFor : Nat
  processedAt : Option Nat
  cancelledAt : Option Nat
  cancellationReason : Option String
  createdAt : Nat
deriving DecidableEq, Repr

/-- Append-only deletion audit ledger row (`deletionAuditLog`). -/
structure AuditLogEntry where
  actionType : String
  targetType : String
  targetCount : Nat
  agentId : Option Nat
  retentionPolicyApplied : String
  executedBy : String
  executedAt : Nat
  createdAt : Nat
deriving DecidableEq, Repr

/-- Cookie-consent row (`cookieConsent` table). -/
structure CookieConsentRecord where
  id : Nat
  agentId : Option Nat
  sessionId : Option String
  necessary : Bool
  analytics : Bool
  marketing : Bool
  consentGivenAt : Nat
  createdAt : Nat
deriving DecidableEq, Repr

/-- The whole document store. -/
structure DB where
  agents : List Agent
  posts : List Post
  comments : List Comment
  votes : List Vote
  connections : List Connection
  endorsements : List Endorsement
  messageThreads : List MessageThread
  messages : List Message
  notifications : List Notification
  activityLog : List ActivityLogEntry
  inviteCodes : List InviteCode
  dataExportRequests : List DataExportRequest
  accountDeletionRequests : List AccountDeletionRequest
  deletionAuditLog : List AuditLogEntry
  cookieConsent : List CookieConsentRecord
deriving DecidableEq, Repr

/-! ## Retention policy table and batch bound (`reports.ts` lines 209–222) -/

/-- One day in milliseconds. -/
def DAYS : Nat := 24 * 60 * 60 * 1000

/-- Static retention durations per entity class. -/
structure RetentionPeriods where
  messages : Nat
  notifications : Nat
  activityLogs : Nat
  softDeletedPosts : Nat
  inactiveAgents : Nat
  dataExports : Nat
  accountDeletionGracePeriod : Nat
deriving DecidableEq, Repr

/-- `RETENTION_PERIODS` constant of the source. -/
def RETENTION_PERIODS : RetentionPeriods :=
  { messages := 90 * DAYS
    notifications := 30 * DAYS
    activityLogs := 365 * DAYS
    softDeletedPosts := 30 * DAYS
    inactiveAgents := 2 * 365 * DAYS
    dataExports := 7 * DAYS
    accountDeletionGracePeriod := 30 * DAYS }

/-- Batch size bound for every cleanup operation. -/
def BATCH_SIZE : Nat := 100

/-! ## Generic deletion helpers

A Convex `for (row of sel) ctx.db.delete(row._id)` loop is a fold deleting
by id; `removeById` is one `delete` call, `deleteRows` the loop. -/

/-- Delete every row whose id equals `i`. -/
def removeById {α : Type} (getId : α → Nat) (i : Nat) (l : List α) : List α :=
  l.filter (fun x => getId x != i)

/-- Delete each row of `sel` from `l` by its id, in order. -/
def deleteRows {α : Type} (getId : α → Nat) (sel : List α) (l : List α) : List α :=
  sel.foldl (fun acc r => removeById getId (getId r) acc) l

/-- Result shape of the deleting cleanup jobs. -/
structure CleanupResult where
  deleted : Nat
  message : String
deriving DecidableEq, Repr

/-- Result shape of the anonymization job. -/
structure AnonymizeResult where
  anonymized : Nat
  message : String
deriving DecidableEq, Repr

/-- Result shape of the pending-deletion processor. -/
structure ProcessResult where
  processed : Nat
  message : String
deriving DecidableEq, Repr

/-! ## Single-collection cleanup jobs (`reports.ts` lines 227–348) -/

/-- Rows selected by `cleanupOldMessages`: `createdAt` strictly older than
`now - 90d`, oldest-first, at most `BATCH_SIZE`. -/
def selectOldMessages (now : Nat) (db : DB) : List Message :=
  (db.messages.filter
    (fun m => decide (m.createdAt < now - RETENTION_PERIODS.messages))).take BATCH_SIZE

/-- `cleanupOldMessages`: delete the selected messages and, when any were
deleted, append one audit entry. -/
def cleanupOldMessages (now : Nat) (db : DB) : DB × CleanupResult :=
  let oldMessages := selectOldMessages now db
  if oldMessages.length = 0 then
    (db, { deleted := 0, message := "No messages to clean up" })
  else
    let db1 := { db with messages := deleteRows Message.id oldMessages db.messages }
    let db2 := { db1 with deletionAuditLog := db1.deletionAuditLog ++
      [{ actionType := "message_cleanup"
         targetType := "messages"
         targetCount := oldMessages.length
         agentId := none
         retentionPolicyApplied := "90_day_message_retention"
         executedBy := "cron_job"
         executedAt := now
         createdAt := now }] }
    (db2, { deleted := oldMessages.length
            message := "Deleted " ++ toString oldMessages.length ++ " messages older than 90 days" })

/-- Rows selected by `cleanupOldNotifications`. -/
def selectOldNotifications (now : Nat) (db : DB) : List Notification :=
  (db.notifications.filter
    (fun n => decide (n.createdAt < now - RETENTION_PERIODS.notifications))).take BATCH_SIZE

/-- `cleanupOldNotifications`. -/
def cleanupOldNotifications (now : Nat) (db : DB) : DB × CleanupResult :=
  let old := selectOldNotifications now db
  if old.length = 0 then
    (db, { deleted := 0, message := "No notifications to clean up" })
  else
    let db1 := { db with notifications := deleteRows Notification.id old db.notifications }
    let db2 := { db1 with deletionAuditLog := db1.deletionAuditLog ++
      [{ actionType := "notification_cleanup"
         targetType := "notifications"
         targetCount := old.length
         agentId := none
         retentionPolicyApplied := "30_day_notification_retention"
         executedBy := "cron_job"
         executedAt := now
         createdAt := now }] }
    (db2, { deleted := old.length
            message := "Deleted " ++ toString old.length ++ " notifications older than 30 days" })

/-- Rows selected by `cleanupOldActivityLogs`. -/
def selectOldActivityLogs (now : Nat) (db : DB) : List ActivityLogEntry :=
  (db.activityLog.filter
    (fun e => decide (e.createdAt < now - RETENTION_PERIODS.activityLogs))).take BATCH_SIZE

/-- `cleanupOldActivityLogs`. -/
def cleanupOldActivityLogs (now : Nat) (db : DB) : DB × CleanupResult :=
  let old := selectOldActivityLogs now db
  if old.length = 0 then
    (db, { deleted := 0, message := "No activity logs to clean up" })
  else
    let db1 := { db with activityLog := deleteRows ActivityLogEntry.id old db.activityLog }
    let db2 := { db1 with deletionAuditLog := db1.deletionAuditLog ++
      [{ actionType := "activity_log_cleanup"
         targetType := "activityLog"
         targetCount := old.length
         agentId := none
         retentionPolicyApplied := "1_year_activity_log_retention"
         executedBy := "cron_job"
         executedAt := now
         createdAt := now }] }
    (db2, { deleted := old.length
            message := "Deleted " ++ toString old.length ++ " activity logs older than 1 year" })

/-! ## Export expiry (`reports.ts` lines 499–533) -/

/-- Rows selected by `cleanupExpiredExports`: `expiresAt` set and `< now`.
Note the filter does not look at `status`. -/
def selectExpiredExports (now : Nat) (db : DB) : List DataExportRequest :=
  (db.dataExportRequests.filter
    (fun r => match r.expiresAt with
      | some t => decide (t < now)
      | none => false)).take BATCH_SIZE

/-- `cleanupExpiredExports`: mark each selected request expired and clear its
payload; no audit entry is ever written. -/
def cleanupExpiredExports (now : Nat) (db : DB) : DB × CleanupResult :=
  let expired := selectExpiredExports now db
  if expired.length = 0 then
    (db, { deleted := 0, message := "No expired exports to clean up" })
  else
    let patched :=
      expired.foldl
        (fun l r => l.map (fun x => if x.id == r.id then
          { x with status := "expired", exportData := none } else x))
        db.dataExportRequests
    let db1 := { db with dataExportRequests := patched }
    (db1, { deleted := expired.length
            message := "Marked " ++ toString expired.length ++ " data exports as expired" })

/-! ## Anonymization job (`reports.ts` lines 434–494) -/

/-- JavaScript `s.slice(-n)`: the last `n` characters (whole string when
shorter than `n`). -/
def sliceLast (s : String) (n : Nat) : String :=
  s.drop (s.length - n)

/-- Rows selected by `anonymizeInactiveAgents`: `lastActiveAt` older than
`now - 2y` and `anonymizedAt` unset. -/
def selectInactiveAgents (now : Nat) (db : DB) : List Agent :=
  (db.agents.filter
    (fun a => decide (a.lastActiveAt < now - RETENTION_PERIODS.inactiveAgents)
      && a.anonymizedAt.isNone)).take BATCH_SIZE

/-- The patch `anonymizeInactiveAgents` applies to one selected agent row:
placeholders derived from the row id suffix, PII cleared, credential replaced
by a timestamped sentinel, `anonymizedAt` set. -/
def anonPatch (now : Nat) (a : Agent) : Agent :=
  { a with
    name := "[Deleted Agent " ++ sliceLast (toString a.id) 6 ++ "]"
    handle := "deleted_" ++ sliceLast (toString a.id) 8
    entityName := "[Deleted]"
    bio := none
    avatarUrl := none
    email := none
    emailVerified := none
    emailVerificationCode := none
    emailVerificationExpiresAt := none
    webhookUrl := none
    anonymizedAt := some now
    apiKey := "ANONYMIZED_" ++ toString now
    apiKeyPfx := "ANON_XXX" }

/-- `anonymizeInactiveAgents`: patch each selected agent in place and append
one audit entry for the batch. -/
def anonymizeInactiveAgents (now : Nat) (db : DB) : DB × AnonymizeResult :=
  let inactive := selectInactiveAgents now db
  if inactive.length = 0 then
    (db, { anonymized := 0, message := "No inactive agents to anonymize" })
  else
    let patched :=
      inactive.foldl
        (fun l a => l.map (fun x => if x.id == a.id then anonPatch now x else x))
        db.agents
    let db1 := { db with agents := patched }
    let db2 := { db1 with deletionAuditLog := db1.deletionAuditLog ++
      [{ actionType := "data_anonymization"
         targetType := "agents"
         targetCount := inactive.length
         agentId := none
         retentionPolicyApplied := "2_year_inactive_agent_anonymization"
         executedBy := "cron_job"
         executedAt := now
         createdAt := now }] }
    (db2, { anonymized := inactive.length
            message := "Anonymized " ++ toString inactive.length ++ " inactive agents" })

/-! ## Cascade Deletion Walker (`reports.ts` lines 353–428 and 609–767)

The walker is instrumented with an event trace: one event per store read
(recording whether it went through an index or enumerated the collection)
and one event per row deletion, in execution order. -/

/-- Store-access / deletion event. -/
inductive Ev where
  | indexedQuery (table : String)
  | fullScan (table : String)
  | deleted (table : String) (rowId : Nat)
deriving DecidableEq, Repr

/-- Does a vote target the row `tid` of `tty` ("post" or "comment")?  The
source compares `targetId` against `_id.toString()`. -/
def voteTargets (v : Vote) (tty : String) (tid : Nat) : Bool :=
  v.targetType == tty && v.targetId == toString tid

/-- Sub-cascade for one comment: delete the votes on it, then the comment. -/
def deleteCommentCascade (db : DB) (c : Comment) : DB × List Ev :=
  let selV := db.votes.filter (fun v => voteTargets v "comment" c.id)
  let db1 := { db with votes := deleteRows Vote.id selV db.votes }
  let db2 := { db1 with comments := removeById Comment.id c.id db1.comments }
  (db2, Ev.indexedQuery "votes" :: selV.map (fun v => Ev.deleted "votes" v.id)
        ++ [Ev.deleted "comments" c.id])

/-- Loop running the comment sub-cascade over a fetched comment list. -/
def commentsLoop : DB → List Comment → DB × List Ev
  | db, [] => (db, [])
  | db, c :: rest =>
    let r1 := deleteCommentCascade db c
    let r2 := commentsLoop r1.1 rest
    (r2.1, r1.2 ++ r2.2)

/-- Cascade for one post: its comments (with their votes), then the post's
own votes, then the post. -/
def deletePostCascade (db : DB) (p : Post) : DB × List Ev :=
  let selC := db.comments.filter (fun c => c.postId == p.id)
  let r1 := commentsLoop db selC
  let db1 := r1.1
  let selPV := db1.votes.filter (fun v => voteTargets v "post" p.id)
  let db2 := { db1 with votes := deleteRows Vote.id selPV db1.votes }
  let db3 := { db2 with posts := removeById Post.id p.id db2.posts }
  (db3, Ev.indexedQuery "comments" :: r1.2
        ++ Ev.indexedQuery "votes" :: selPV.map (fun v => Ev.deleted "votes" v.id)
        ++ [Ev.deleted "posts" p.id])

/-- Loop running the post cascade over a fetched post list. -/
def postsLoop : DB → List Post → DB × List Ev
  | db, [] => (db, [])
  | db, p :: rest =>
    let r1 := deletePostCascade db p
    let r2 := postsLoop r1.1 rest
    (r2.1, r1.2 ++ r2.2)

/-- Thread step of the agent cascade: the source enumerates the whole
`messageThreads` collection and, for each thread containing the agent,
deletes its messages (indexed by thread id) and then the thread. -/
def threadsLoop (agentId : Nat) : DB → List MessageThread → DB × List Ev
  | db, [] => (db, [])
  | db, th :: rest =>
    if th.participantIds.contains agentId then
      let selM := db.messages.filter (fun m => m.threadId == th.id)
      let db1 := { db with messages := deleteRows Message.id selM db.messages }
      let db2 := { db1 with messageThreads := removeById MessageThread.id th.id db1.messageThreads }
      let r := threadsLoop agentId db2 rest
      (r.1, Ev.indexedQuery "messages" :: selM.map (fun m => Ev.deleted "messages" m.id)
            ++ Ev.deleted "messageThreads" th.id :: r.2)
    else
      threadsLoop agentId db rest

/-- Agent-cascade step 1: the agent's posts, each with the post cascade. -/
def agentPostsStep (agentId : Nat) (db : DB) : DB × List Ev :=
  let r := postsLoop db (db.posts.filter (fun p => p.agentId == agentId))
  (r.1, Ev.indexedQuery "posts" :: r.2)

/-- Agent-cascade step 2: the agent's own comments, each with its votes. -/
def agentCommentsStep (agentId : Nat) (db : DB) : DB × List Ev :=
  let r := commentsLoop db (db.comments.filter (fun c => c.agentId == agentId))
  (r.1, Ev.indexedQuery "comments" :: r.2)

/-- Agent-cascade step 3: the agent's votes. -/
def agentVotesStep (agentId : Nat) (db : DB) : DB × List Ev :=
  let sel := db.votes.filter (fun v => v.agentId == agentId)
  ({ db with votes := deleteRows Vote.id sel db.votes },
   Ev.indexedQuery "votes" :: sel.map (fun v => Ev.deleted "votes" v.id))

/-- Agent-cascade step 4: connections, outgoing then incoming. -/
def agentConnectionsStep (agentId : Nat) (db : DB) : DB × List Ev :=
  let selO := db.connections.filter (fun c => c.fromAgentId == agentId)
  let db1 := { db with connections := deleteRows Connection.id selO db.connections }
  let selI := db1.connections.filter (fun c => c.toAgentId == agentId)
  let db2 := { db1 with connections := deleteRows Connection.id selI db1.connections }
  (db2, Ev.indexedQuery "connections" :: selO.map (fun c => Ev.deleted "connections" c.id)
        ++ Ev.indexedQuery "connections" :: selI.map (fun c => Ev.deleted "connections" c.id))

/-- Agent-cascade step 5: endorsements, given then received. -/
def agentEndorsementsStep (agentId : Nat) (db : DB) : DB × List Ev :=
  let selO := db.endorsements.filter (fun e => e.fromAgentId == agentId)
  let db1 := { db with endorsements := deleteRows Endorsement.id selO db.endorsements }
  let selI := db1.endorsements.filter (fun e => e.toAgentId == agentId)
  let db2 := { db1 with endorsements := deleteRows Endorsement.id selI db1.endorsements }
  (db2, Ev.indexedQuery "endorsements" :: selO.map (fun e => Ev.deleted "endorsements" e.id)
        ++ Ev.indexedQuery "endorsements" :: selI.map (fun e => Ev.deleted "endorsements" e.id))

/-- Agent-cascade step 6: threads the agent participates in, with their
messages; the thread list is obtained by a full collection scan. -/
def agentThreadsStep (agentId : Nat) (db : DB) : DB × List Ev :=
  let r := threadsLoop agentId db db.messageThreads
  (r.1, Ev.fullScan "messageThreads" :: r.2)

/-- Agent-cascade step 7: notifications. -/
def agentNotificationsStep (agentId : Nat) (db : DB) : DB × List Ev :=
  let sel := db.notifications.filter (fun n => n.agentId == agentId)
  ({ db with notifications := deleteRows Notification.id sel db.notifications },
   Ev.indexedQuery "notifications" :: sel.map (fun n => Ev.deleted "notifications" n.id))

/-- Agent-cascade step 8: activity-log entries. -/
def agentActivityStep (agentId : Nat) (db : DB) : DB × List Ev :=
  let sel := db.activityLog.filter (fun e => e.agentId == agentId)
  ({ db with activityLog := deleteRows ActivityLogEntry.id sel db.activityLog },
   Ev.indexedQuery "activityLog" :: sel.map (fun e => Ev.deleted "activityLog" e.id))

/-- Agent-cascade step 9: invite codes created by the agent. -/
def agentInviteCodesStep (agentId : Nat) (db : DB) : DB × List Ev :=
  let sel := db.inviteCodes.filter (fun i => i.createdByAgentId == agentId)
  ({ db with inviteCodes := deleteRows InviteCode.id sel db.inviteCodes },
   Ev.indexedQuery "inviteCodes" :: sel.map (fun i => Ev.deleted "inviteCodes" i.id))

/-- Agent-cascade step 10: data-export requests owned by the agent. -/
def agentExportsStep (agentId : Nat) (db : DB) : DB × List Ev :=
  let sel := db.dataExportRequests.filter (fun r => r.agentId == agentId)
  ({ db with dataExportRequests := deleteRows DataExportRequest.id sel db.dataExportRequests },
   Ev.indexedQuery "dataExportRequests" :: sel.map (fun r => Ev.deleted "dataExportRequests" r.id))

/-- Agent-cascade step 11: the agent row itself. -/
def agentRowStep (agentId : Nat) (db : DB) : DB × List Ev :=
  ({ db with agents := removeById Agent.id agentId db.agents },
   [Ev.deleted "agents" agentId])

/-- Sequencing of instrumented steps: run the second on the first's state
and concatenate the traces. -/
def stepSeq (f g : DB → DB × List Ev) (db : DB) : DB × List Ev :=
  let r1 := f db
  let r2 := g r1.1
  (r2.1, r1.2 ++ r2.2)

/-- `deleteAgentData`: the full agent cascade, in source order, ending with
the agent row itself. -/
def deleteAgentData (db : DB) (agentId : Nat) : DB × List Ev :=
  stepSeq (agentPostsStep agentId)
    (stepSeq (agentCommentsStep agentId)
    (stepSeq (agentVotesStep agentId)
    (stepSeq (agentConnectionsStep agentId)
    (stepSeq (agentEndorsementsStep agentId)
    (stepSeq (agentThreadsStep agentId)
    (stepSeq (agentNotificationsStep agentId)
    (stepSeq (agentActivityStep agentId)
    (stepSeq (agentInviteCodesStep agentId)
    (stepSeq (agentExportsStep agentId)
      (agentRowStep agentId)))))))))) db

/-! ## Soft-deleted-post purge (`reports.ts` lines 353–428) -/

/-- Rows selected by `permanentlyDeleteOldPosts`: `deletedAt` set and
strictly older than `now - 30d`, at most `BATCH_SIZE`. -/
def selectPostsToDelete (now : Nat) (db : DB) : List Post :=
  (db.posts.filter
    (fun p => match p.deletedAt with
      | some t => decide (t < now - RETENTION_PERIODS.softDeletedPosts)
      | none => false)).take BATCH_SIZE

/-- `permanentlyDeleteOldPosts`: cascade-delete each selected post, then one
audit entry whose `targetCount` is the number of posts removed (the source
increments `deletedCount` once per selected post, so it equals the selection
length). -/
def permanentlyDeleteOldPosts (now : Nat) (db : DB) : DB × List Ev × CleanupResult :=
  let sel := selectPostsToDelete now db
  if sel.length = 0 then
    (db, [], { deleted := 0, message := "No soft-deleted posts to permanently delete" })
  else
    let r := postsLoop db sel
    let db1 := r.1
    let db2 := { db1 with deletionAuditLog := db1.deletionAuditLog ++
      [{ actionType := "post_deletion"
         targetType := "posts"
         targetCount := sel.length
         agentId := none
         retentionPolicyApplied := "30_day_soft_delete_retention"
         executedBy := "cron_job"
         executedAt := now
         createdAt := now }] }
    (db2, r.2, { deleted := sel.length
                 message := "Permanently deleted " ++ toString sel.length ++ " soft-deleted posts" })

/-! ## Account-deletion state machine
(`compliance/deletion.ts`, `compliance/helpers.ts`, `reports.ts` 538–604) -/

/-- `authenticateAgent` of `compliance/helpers.ts`: hash the incoming key,
look the agent up by key prefix, compare the stored hash, and reject
deleted or anonymized rows.  `hash` abstracts SHA-256 hex. -/
def authenticateAgent (hash : String → String) (db : DB) (apiKey : String) :
    Option Agent :=
  if apiKey = "" then none
  else
    match (db.agents.filter (fun a => a.apiKeyPfx == apiKey.take 11)).head? with
    | none => none
    | some agent =>
      if agent.apiKey != hash apiKey then none
      else if agent.deletedAt.isSome || agent.anonymizedAt.isSome then none
      else some agent

/-- Result of `requestAccountDeletion` (the scheduled date is kept as a
timestamp rather than an ISO string). -/
structure RequestDeletionResult where
  requestId : Nat
  scheduledFor : Nat
  message : String
deriving DecidableEq, Repr

/-- `requestAccountDeletion`: reject when a pending request already exists
for the authenticated agent, otherwise insert a new pending request
scheduled 30 days out.  `newId` is the id the store assigns to the insert. -/
def requestAccountDeletion (hash : String → String) (now newId : Nat) (db : DB)
    (apiKey : String) (reason : Option String) :
    Except String (DB × RequestDeletionResult) :=
  match authenticateAgent hash db apiKey with
  | none => .error "Invalid API key"
  | some agent =>
    match (db.accountDeletionRequests.filter
        (fun r => r.agentId == agent.id && r.status == "pending")).head? with
    | some _ => .error "A deletion request is already pending for this account"
    | none =>
      let gracePeriod := 30 * 24 * 60 * 60 * 1000
      let row : AccountDeletionRequest :=
        { id := newId
          agentId := agent.id
          status := "pending"
          reason := reason
          requestedAt := now
          scheduledFor := now + gracePeriod
          processedAt := none
          cancelledAt := none
          cancellationReason := none
          createdAt := now }
      .ok ({ db with accountDeletionRequests := db.accountDeletionRequests ++ [row] },
           { requestId := newId
             scheduledFor := now + gracePeriod
             message := "Account deletion scheduled. You have 30 days to cancel this request." })

/-- `cancelAccountDeletion`: only valid against a pending request; records
`cancelledAt` and the optional reason. -/
def cancelAccountDeletion (hash : String → String) (now : Nat) (db : DB)
    (apiKey : String) (creason : Option String) : Except String (DB × String) :=
  match authenticateAgent hash db apiKey with
  | none => .error "Invalid API key"
  | some agent =>
    match (db.accountDeletionRequests.filter
        (fun r => r.agentId == agent.id && r.status == "pending")).head? with
    | none => .error "No pending deletion request found"
    | some pr =>
      let patched := db.accountDeletionRequests.map (fun r =>
        if r.id == pr.id then
          { r with status := "cancelled", cancelledAt := some now,
                   cancellationReason := creason }
        else r)
      .ok ({ db with accountDeletionRequests := patched },
           "Account deletion request has been cancelled")

/-- Patch one deletion request's status by row id. -/
def setRequestStatus (db : DB) (rid : Nat) (s : String) : DB :=
  { db with accountDeletionRequests := db.accountDeletionRequests.map (fun r =>
      if r.id == rid then { r with status := s } else r) }

/-- Patch one deletion request to completed with `processedAt` set. -/
def completeRequest (db : DB) (rid now : Nat) : DB :=
  { db with accountDeletionRequests := db.accountDeletionRequests.map (fun r =>
      if r.id == rid then { r with status := "completed", processedAt := some now } else r) }

/-- Requests selected by `processPendingDeletions`: status pending (via the
status index) with `scheduledFor <= now`, at most `BATCH_SIZE`. -/
def selectPendingDeletions (now : Nat) (db : DB) : List AccountDeletionRequest :=
  (db.accountDeletionRequests.filter
    (fun r => r.status == "pending" && decide (r.scheduledFor ≤ now))).take BATCH_SIZE

/-- State threaded through the processing loop: the store, the processed
counter, and the agent ids the cascade was invoked on. -/
structure ProcState where
  db : DB
  processedCount : Nat
  cascadeCalls : List Nat
deriving DecidableEq, Repr

/-- One iteration of the processing loop.  The cascade is a parameter
returning `Except DB DB`: `.error` models a thrown exception, carrying the
partial store state at the throw (the catch block then reverts the request
to pending); `.ok` is a completed cascade. -/
def processOne (cascade : DB → Nat → Except DB DB) (now : Nat)
    (st : ProcState) (r : AccountDeletionRequest) : ProcState :=
  let db1 := setRequestStatus st.db r.id "processing"
  match db1.agents.find? (fun a => a.id == r.agentId) with
  | none =>
    { st with db := completeRequest db1 r.id now }
  | some _ =>
    match cascade db1 r.agentId with
    | .ok db2 =>
      let db3 := completeRequest db2 r.id now
      let db4 := { db3 with deletionAuditLog := db3.deletionAuditLog ++
        [{ actionType := "account_deletion"
           targetType := "agent"
           targetCount := 1
           agentId := some r.agentId
           retentionPolicyApplied := "account_deletion_request"
           executedBy := "cron_job"
           executedAt := now
           createdAt := now }] }
      { db := db4
        processedCount := st.processedCount + 1
        cascadeCalls := st.cascadeCalls ++ [r.agentId] }
    | .error dbE =>
      { db := setRequestStatus dbE r.id "pending"
        processedCount := st.processedCount
        cascadeCalls := st.cascadeCalls ++ [r.agentId] }

/-- The processing loop over the fetched request list. -/
def processLoop (cascade : DB → Nat → Except DB DB) (now : Nat) :
    ProcState → List AccountDeletionRequest → ProcState
  | st, [] => st
  | st, r :: rest => processLoop cascade now (processOne cascade now st r) rest

/-- `processPendingDeletions`, parametric in the cascade. -/
def processPendingDeletions (cascade : DB → Nat → Except DB DB) (now : Nat)
    (db : DB) : ProcState × ProcessResult :=
  let sel := selectPendingDeletions now db
  if sel.length = 0 then
    ({ db := db, processedCount := 0, cascadeCalls := [] },
     { processed := 0, message := "No pending deletions to process" })
  else
    let st := processLoop cascade now
      { db := db, processedCount := 0, cascadeCalls := [] } sel
    (st, { processed := st.processedCount
           message := "Processed " ++ toString st.processedCount ++ " account deletion requests" })

/-- The cascade actually wired in: `deleteAgentData`, which (as a pure
function) always completes. -/
def agentCascade (db : DB) (agentId : Nat) : Except DB DB :=
  .ok (deleteAgentData db agentId).1

/-- The production entry point: the processor running the real cascade. -/
def processPendingDeletionsRun (now : Nat) (db : DB) : ProcState × ProcessResult :=
  processPendingDeletions agentCascade now db

/-! ## Toolkit lemmas about the deletion helpers -/

theorem mem_removeById {α : Type} (getId : α → Nat) (i : Nat) {l : List α} {x : α}
    (hx : x ∈ removeById getId i l) : x ∈ l ∧ getId x ≠ i := by
  have h := List.mem_filter.mp hx
  exact ⟨h.1, by simpa using h.2⟩

theorem mem_deleteRows {α : Type} (getId : α → Nat) :
    ∀ {sel l : List α} {x : α}, x ∈ deleteRows getId sel l →
      x ∈ l ∧ ∀ r ∈ sel, getId x ≠ getId r := by
  intro sel
  induction sel with
  | nil => intro l x hx; exact ⟨hx, by simp⟩
  | cons r rest ih =>
    intro l x hx
    have hx2 : x ∈ deleteRows getId rest (removeById getId (getId r) l) := hx
    obtain ⟨hmem, hall⟩ := ih hx2
    obtain ⟨hmem2, hne⟩ := mem_removeById getId (getId r) hmem
    refine ⟨hmem2, ?_⟩
    intro s hs
    rcases List.mem_cons.mp hs with h | h
    · subst h; exact hne
    · exact hall s h

/-- A delete loop over rows selected by a filter from the same list leaves no
row satisfying the filter. -/
theorem deleteRows_self_clear {α : Type} (getId : α → Nat) (p : α → Bool)
    {l : List α} {x : α} (hx : x ∈ deleteRows getId (l.filter p) l) :
    p x = false := by
  obtain ⟨hmem, hall⟩ := mem_deleteRows getId hx
  by_contra hcon
  have hp : p x = true := by
    cases hpx : p x with
    | false => exact absurd hpx hcon
    | true => rfl
  exact hall x (List.mem_filter.mpr ⟨hmem, hp⟩) rfl

/-- Mapping a function that does not change a row's evaluation under `q`
commutes with filtering by `q`. -/
theorem filter_map_comm {α : Type} (g : α → α) (q : α → Bool)
    (hq : ∀ x, q (g x) = q x) :
    ∀ l : List α, (l.map g).filter q = (l.filter q).map g := by
  intro l
  induction l with
  | nil => rfl
  | cons x rest ih =>
    by_cases hx : q x = true
    · simp [List.filter_cons, hq, hx, ih]
    · have hx2 : q x = false := by
        cases h : q x with
        | false => rfl
        | true => exact absurd h hx
      simp [List.filter_cons, hq, hx2, ih]

/-- If the map is the identity on every row kept by the filter, the filtered
list is unchanged. -/
theorem filter_map_id {α : Type} (g : α → α) (q : α → Bool)
    (hq : ∀ x, q (g x) = q x) (hid : ∀ x, q x = true → g x = x)
    (l : List α) : (l.map g).filter q = l.filter q := by
  rw [filter_map_comm g q hq l]
  have : (l.filter q).map g = (l.filter q).map id := by
    apply List.map_congr_left
    intro x hx
    exact hid x (List.mem_filter.mp hx).2
  simpa using this

/-- Pointwise-weaker predicates have fewer matches after a map. -/
theorem length_filter_map_le {α : Type} (g : α → α) (q : α → Bool)
    (hq : ∀ x, q (g x) = true → q x = true) (l : List α) :
    ((l.map g).filter q).length ≤ (l.filter q).length := by
  induction l with
  | nil => simp
  | cons x rest ih =>
    by_cases hgx : q (g x) = true
    · have hx := hq x hgx
      simp [List.filter_cons, hgx, hx]
      omega
    · have hgx2 : q (g x) = false := by
        cases h : q (g x) with
        | false => rfl
        | true => exact absurd h hgx
      by_cases hx : q x = true
      · simp [List.filter_cons, hgx2, hx]
        omega
      · have hx2 : q x = false := by
          cases h : q x with
          | false => rfl
          | true => exact absurd h hx
        simp [List.filter_cons, hgx2, hx2]
        exact ih

/-! ## Structure of the cascade loops -/

/-- `commentsLoop` touches only the `comments` and `votes` tables; its effect
on `comments` is deletion of the processed rows by id. -/
theorem commentsLoop_state : ∀ (cs : List Comment) (db : DB),
    (commentsLoop db cs).1 =
      { db with comments := deleteRows Comment.id cs db.comments,
                votes := (commentsLoop db cs).1.votes } := by
  intro cs
  induction cs with
  | nil => intro db; simp [commentsLoop, deleteRows]
  | cons c rest ih =>
    intro db
    show (commentsLoop (deleteCommentCascade db c).1 rest).1 = _
    rw [ih]
    simp [deleteCommentCascade, deleteRows, commentsLoop]

/-- Votes only disappear under `commentsLoop`. -/
theorem commentsLoop_votes_mem : ∀ (cs : List Comment) (db : DB) {v : Vote},
    v ∈ (commentsLoop db cs).1.votes → v ∈ db.votes := by
  intro cs
  induction cs with
  | nil => intro db v hv; exact hv
  | cons c rest ih =>
    intro db v hv
    have h1 : v ∈ (deleteCommentCascade db c).1.votes := ih _ hv
    exact (mem_deleteRows Vote.id h1).1

/-- After `commentsLoop`, no remaining vote targets any processed comment. -/
theorem commentsLoop_votes_clear : ∀ (cs : List Comment) (db : DB) {c : Comment},
    c ∈ cs → ∀ v ∈ (commentsLoop db cs).1.votes,
      voteTargets v "comment" c.id = false := by
  intro cs
  induction cs with
  | nil => intro db c hc; exact absurd hc (List.not_mem_nil c)
  | cons c0 rest ih =>
    intro db c hc v hv
    rcases List.mem_cons.mp hc with h | h
    · subst h
      have h1 : v ∈ (deleteCommentCascade db c).1.votes :=
        commentsLoop_votes_mem rest _ hv
      exact deleteRows_self_clear Vote.id (fun v => voteTargets v "comment" c.id) h1
    · exact ih _ h v hv

/-- `postsLoop` touches only the `posts`, `comments` and `votes` tables; its
effect on `posts` is deletion of the processed rows by id. -/
theorem postsLoop_state : ∀ (ps : List Post) (db : DB),
    (postsLoop db ps).1 =
      { db with posts := deleteRows Post.id ps db.posts,
                comments := (postsLoop db ps).1.comments,
                votes := (postsLoop db ps).1.votes } := by
  intro ps
  induction ps with
  | nil => intro db; simp [postsLoop, deleteRows]
  | cons p rest ih =>
    intro db
    show (postsLoop (deletePostCascade db p).1 rest).1 = _
    rw [ih]
    have hstate := commentsLoop_state
      (db.comments.filter (fun c => c.postId == p.id)) db
    simp [deletePostCascade, deleteRows, postsLoop]
    rw [hstate]
    exact ⟨rfl, rfl, rfl, rfl, rfl, rfl, rfl, rfl, rfl, rfl, rfl, rfl, rfl⟩

/-- Comments only disappear under `postsLoop`. -/
theorem postsLoop_comments_mem : ∀ (ps : List Post) (db : DB) {c : Comment},
    c ∈ (postsLoop db ps).1.comments → c ∈ db.comments := by
  intro ps
  induction ps with
  | nil => intro db c hc; exact hc
  | cons p rest ih =>
    intro db c hc
    have h1 : c ∈ (deletePostCascade db p).1.comments := ih _ hc
    have h2 : (deletePostCascade db p).1.comments =
        deleteRows Comment.id (db.comments.filter (fun x => x.postId == p.id))
          db.comments := by
      have := commentsLoop_state (db.comments.filter (fun x => x.postId == p.id)) db
      simp [deletePostCascade]
      rw [this]
    rw [h2] at h1
    exact (mem_deleteRows Comment.id h1).1

/-- Votes only disappear under `postsLoop`. -/
theorem postsLoop_votes_mem : ∀ (ps : List Post) (db : DB) {v : Vote},
    v ∈ (postsLoop db ps).1.votes → v ∈ db.votes := by
  intro ps
  induction ps with
  | nil => intro db v hv; exact hv
  | cons p rest ih =>
    intro db v hv
    have h1 : v ∈ (deletePostCascade db p).1.votes := ih _ hv
    have h2 : (deletePostCascade db p).1.votes =
        deleteRows Vote.id
          ((commentsLoop db (db.comments.filter (fun c => c.postId == p.id))).1.votes.filter
            (fun v => voteTargets v "post" p.id))
          (commentsLoop db (db.comments.filter (fun c => c.postId == p.id))).1.votes := by
      simp [deletePostCascade]
    rw [h2] at h1
    exact commentsLoop_votes_mem _ _ (mem_deleteRows Vote.id h1).1

/-- After `postsLoop`, no remaining comment sits on any processed post. -/
theorem postsLoop_comments_clear : ∀ (ps : List Post) (db : DB) {p : Post},
    p ∈ ps → ∀ c ∈ (postsLoop db ps).1.comments, (c.postId == p.id) = false := by
  intro ps
  induction ps with
  | nil => intro db p hp; exact absurd hp (List.not_mem_nil p)
  | cons p0 rest ih =>
    intro db p hp c hc
    rcases List.mem_cons.mp hp with h | h
    · subst h
      have h1 : c ∈ (deletePostCascade db p).1.comments :=
        postsLoop_comments_mem rest _ hc
      have h2 : (deletePostCascade db p).1.comments =
          deleteRows Comment.id (db.comments.filter (fun x => x.postId == p.id))
            db.comments := by
        have := commentsLoop_state (db.comments.filter (fun x => x.postId == p.id)) db
        simp [deletePostCascade]
        rw [this]
      rw [h2] at h1
      exact deleteRows_self_clear Comment.id (fun x => x.postId == p.id) h1
    · exact ih _ h c hc

/-- After `postsLoop`, no remaining vote targets any processed post. -/
theorem postsLoop_post_votes_clear : ∀ (ps : List Post) (db : DB) {p : Post},
    p ∈ ps → ∀ v ∈ (postsLoop db ps).1.votes,
      voteTargets v "post" p.id = false := by
  intro ps
  induction ps with
  | nil => intro db p hp; exact absurd hp (List.not_mem_nil p)
  | cons p0 rest ih =>
    intro db p hp v hv
    rcases List.mem_cons.mp hp with h | h
    · subst h
      have h1 : v ∈ (deletePostCascade db p).1.votes :=
        postsLoop_votes_mem rest _ hv
      have h2 : (deletePostCascade db p).1.votes =
          deleteRows Vote.id
            ((commentsLoop db (db.comments.filter (fun c => c.postId == p.id))).1.votes.filter
              (fun v => voteTargets v "post" p.id))
            (commentsLoop db (db.comments.filter (fun c => c.postId == p.id))).1.votes := by
        simp [deletePostCascade]
      rw [h2] at h1
      exact deleteRows_self_clear Vote.id (fun v => voteTargets v "post" p.id) h1
    · exact ih _ h v hv

/-- `threadsLoop` touches only `messageThreads` and `messages`. -/
theorem threadsLoop_state (a : Nat) : ∀ (ts : List MessageThread) (db : DB),
    (threadsLoop a db ts).1 =
      { db with messageThreads := (threadsLoop a db ts).1.messageThreads,
                messages := (threadsLoop a db ts).1.messages } := by
  intro ts
  induction ts with
  | nil => intro db; simp [threadsLoop]
  | cons th rest ih =>
    intro db
    by_cases h : th.participantIds.contains a
    · show (threadsLoop a db (th :: rest)).1 = _
      simp only [threadsLoop, h, if_pos]
      rw [ih]
    · show (threadsLoop a db (th :: rest)).1 = _
      simp only [threadsLoop, h, Bool.false_eq_true, if_neg, not_false_iff]
      rw [ih]

/-- Threads only disappear under `threadsLoop`, and a surviving thread from
the scanned list cannot contain the agent. -/
theorem threadsLoop_threads_mem (a : Nat) : ∀ (ts : List MessageThread) (db : DB)
    {x : MessageThread}, x ∈ (threadsLoop a db ts).1.messageThreads →
      x ∈ db.messageThreads ∧ (x ∈ ts → x.participantIds.contains a = false) := by
  intro ts
  induction ts with
  | nil =>
    intro db x hx
    exact ⟨hx, by intro hmem; exact absurd hmem (List.not_mem_nil x)⟩
  | cons th rest ih =>
    intro db x hx
    by_cases h : th.participantIds.contains a
    · simp only [threadsLoop, h, if_pos] at hx
      obtain ⟨hmem, hrest⟩ := ih _ hx
      obtain ⟨hmem2, hne⟩ := mem_removeById MessageThread.id th.id hmem
      refine ⟨hmem2, ?_⟩
      intro hmemts
      rcases List.mem_cons.mp hmemts with heq | htail
      · exact absurd (congrArg MessageThread.id heq) hne
      · exact hrest htail
    · simp only [threadsLoop, h, Bool.false_eq_true, if_neg, not_false_iff] at hx
      obtain ⟨hmem, hrest⟩ := ih _ hx
      refine ⟨hmem, ?_⟩
      intro hmemts
      rcases List.mem_cons.mp hmemts with heq | htail
      · subst heq
        cases hca : x.participantIds.contains a with
        | false => rfl
        | true => exact absurd hca h
      · exact hrest htail

/-- Messages only disappear under `threadsLoop`. -/
theorem threadsLoop_messages_mem (a : Nat) : ∀ (ts : List MessageThread) (db : DB)
    {m : Message}, m ∈ (threadsLoop a db ts).1.messages → m ∈ db.messages := by
  intro ts
  induction ts with
  | nil => intro db m hm; exact hm
  | cons th rest ih =>
    intro db m hm
    by_cases h : th.participantIds.contains a
    · simp only [threadsLoop, h, if_pos] at hm
      have hm3 := ih _ hm
      exact (mem_deleteRows Message.id hm3).1
    · simp only [threadsLoop, h, Bool.false_eq_true, if_neg, not_false_iff] at hm
      exact ih _ hm

/-- After `threadsLoop`, no remaining message belongs to a scanned thread
containing the agent. -/
theorem threadsLoop_messages_clear (a : Nat) : ∀ (ts : List MessageThread) (db : DB)
    {th : MessageThread}, th ∈ ts → th.participantIds.contains a = true →
      ∀ m ∈ (threadsLoop a db ts).1.messages, (m.threadId == th.id) = false := by
  intro ts
  induction ts with
  | nil => intro db th hth; exact absurd hth (List.not_mem_nil th)
  | cons th0 rest ih =>
    intro db th hth hpart m hm
    rcases List.mem_cons.mp hth with heq | htail
    · subst heq
      simp only [threadsLoop, hpart, if_pos] at hm
      have hm3 := threadsLoop_messages_mem a rest _ hm
      exact deleteRows_self_clear Message.id (fun x => x.threadId == th.id) hm3
    · by_cases h : th0.participantIds.contains a
      · simp only [threadsLoop, h, if_pos] at hm
        exact ih _ htail hpart m hm
      · simp only [threadsLoop, h, Bool.false_eq_true, if_neg, not_false_iff] at hm
        exact ih _ htail hpart m hm

/-! ## Projection corollaries of the loop state lemmas -/

theorem commentsLoop_comments (cs : List Comment) (db : DB) :
    (commentsLoop db cs).1.comments = deleteRows Comment.id cs db.comments := by
  rw [commentsLoop_state]

theorem commentsLoop_posts (cs : List Comment) (db : DB) :
    (commentsLoop db cs).1.posts = db.posts := by rw [commentsLoop_state]

theorem commentsLoop_agents (cs : List Comment) (db : DB) :
    (commentsLoop db cs).1.agents = db.agents := by rw [commentsLoop_state]

theorem commentsLoop_connections (cs : List Comment) (db : DB) :
    (commentsLoop db cs).1.connections = db.connections := by rw [commentsLoop_state]

theorem commentsLoop_endorsements (cs : List Comment) (db : DB) :
    (commentsLoop db cs).1.endorsements = db.endorsements := by rw [commentsLoop_state]

theorem commentsLoop_messageThreads (cs : List Comment) (db : DB) :
    (commentsLoop db cs).1.messageThreads = db.messageThreads := by rw [commentsLoop_state]

theorem commentsLoop_messages (cs : List Comment) (db : DB) :
    (commentsLoop db cs).1.messages = db.messages := by rw [commentsLoop_state]

theorem commentsLoop_notifications (cs : List Comment) (db : DB) :
    (commentsLoop db cs).1.notifications = db.notifications := by rw [commentsLoop_state]

theorem commentsLoop_activityLog (cs : List Comment) (db : DB) :
    (commentsLoop db cs).1.activityLog = db.activityLog := by rw [commentsLoop_state]

theorem commentsLoop_inviteCodes (cs : List Comment) (db : DB) :
    (commentsLoop db cs).1.inviteCodes = db.inviteCodes := by rw [commentsLoop_state]

theorem commentsLoop_dataExportRequests (cs : List Comment) (db : DB) :
    (commentsLoop db cs).1.dataExportRequests = db.dataExportRequests := by
  rw [commentsLoop_state]

theorem commentsLoop_accountDeletionRequests (cs : List Comment) (db : DB) :
    (commentsLoop db cs).1.accountDeletionRequests = db.accountDeletionRequests := by
  rw [commentsLoop_state]

theorem commentsLoop_deletionAuditLog (cs : List Comment) (db : DB) :
    (commentsLoop db cs).1.deletionAuditLog = db.deletionAuditLog := by
  rw [commentsLoop_state]

theorem commentsLoop_cookieConsent (cs : List Comment) (db : DB) :
    (commentsLoop db cs).1.cookieConsent = db.cookieConsent := by
  rw [commentsLoop_state]

theorem postsLoop_posts (ps : List Post) (db : DB) :
    (postsLoop db ps).1.posts = deleteRows Post.id ps db.posts := by
  rw [postsLoop_state]

theorem postsLoop_agents (ps : List Post) (db : DB) :
    (postsLoop db ps).1.agents = db.agents := by rw [postsLoop_state]

theorem postsLoop_connections (ps : List Post) (db : DB) :
    (postsLoop db ps).1.connections = db.connections := by rw [postsLoop_state]

theorem postsLoop_endorsements (ps : List Post) (db : DB) :
    (postsLoop db ps).1.endorsements = db.endorsements := by rw [postsLoop_state]

theorem postsLoop_messageThreads (ps : List Post) (db : DB) :
    (postsLoop db ps).1.messageThreads = db.messageThreads := by rw [postsLoop_state]

theorem postsLoop_messages (ps : List Post) (db : DB) :
    (postsLoop db ps).1.messages = db.messages := by rw [postsLoop_state]

theorem postsLoop_notifications (ps : List Post) (db : DB) :
    (postsLoop db ps).1.notifications = db.notifications := by rw [postsLoop_state]

theorem postsLoop_activityLog (ps : List Post) (db : DB) :
    (postsLoop db ps).1.activityLog = db.activityLog := by rw [postsLoop_state]

theorem postsLoop_inviteCodes (ps : List Post) (db : DB) :
    (postsLoop db ps).1.inviteCodes = db.inviteCodes := by rw [postsLoop_state]

theorem postsLoop_dataExportRequests (ps : List Post) (db : DB) :
    (postsLoop db ps).1.dataExportRequests = db.dataExportRequests := by
  rw [postsLoop_state]

theorem postsLoop_accountDeletionRequests (ps : List Post) (db : DB) :
    (postsLoop db ps).1.accountDeletionRequests = db.accountDeletionRequests := by
  rw [postsLoop_state]

theorem postsLoop_deletionAuditLog (ps : List Post) (db : DB) :
    (postsLoop db ps).1.deletionAuditLog = db.deletionAuditLog := by
  rw [postsLoop_state]

theorem postsLoop_cookieConsent (ps : List Post) (db : DB) :
    (postsLoop db ps).1.cookieConsent = db.cookieConsent := by rw [postsLoop_state]

theorem threadsLoop_agents (a : Nat) (ts : List MessageThread) (db : DB) :
    (threadsLoop a db ts).1.agents = db.agents := by rw [threadsLoop_state]

theorem threadsLoop_posts (a : Nat) (ts : List MessageThread) (db : DB) :
    (threadsLoop a db ts).1.posts = db.posts := by rw [threadsLoop_state]

theorem threadsLoop_comments (a : Nat) (ts : List MessageThread) (db : DB) :
    (threadsLoop a db ts).1.comments = db.comments := by rw [threadsLoop_state]

theorem threadsLoop_votes (a : Nat) (ts : List MessageThread) (db : DB) :
    (threadsLoop a db ts).1.votes = db.votes := by rw [threadsLoop_state]

theorem threadsLoop_connections (a : Nat) (ts : List MessageThread) (db : DB) :
    (threadsLoop a db ts).1.connections = db.connections := by rw [threadsLoop_state]

theorem threadsLoop_endorsements (a : Nat) (ts : List MessageThread) (db : DB) :
    (threadsLoop a db ts).1.endorsements = db.endorsements := by rw [threadsLoop_state]

theorem threadsLoop_notifications (a : Nat) (ts : List MessageThread) (db : DB) :
    (threadsLoop a db ts).1.notifications = db.notifications := by rw [threadsLoop_state]

theorem threadsLoop_activityLog (a : Nat) (ts : List MessageThread) (db : DB) :
    (threadsLoop a db ts).1.activityLog = db.activityLog := by rw [threadsLoop_state]

theorem threadsLoop_inviteCodes (a : Nat) (ts : List MessageThread) (db : DB) :
    (threadsLoop a db ts).1.inviteCodes = db.inviteCodes := by rw [threadsLoop_state]

theorem threadsLoop_dataExportRequests (a : Nat) (ts : List MessageThread) (db : DB) :
    (threadsLoop a db ts).1.dataExportRequests = db.dataExportRequests := by
  rw [threadsLoop_state]

theorem threadsLoop_accountDeletionRequests (a : Nat) (ts : List MessageThread) (db : DB) :
    (threadsLoop a db ts).1.accountDeletionRequests = db.accountDeletionRequests := by
  rw [threadsLoop_state]

theorem threadsLoop_deletionAuditLog (a : Nat) (ts : List MessageThread) (db : DB) :
    (threadsLoop a db ts).1.deletionAuditLog = db.deletionAuditLog := by
  rw [threadsLoop_state]

theorem threadsLoop_cookieConsent (a : Nat) (ts : List MessageThread) (db : DB) :
    (threadsLoop a db ts).1.cookieConsent = db.cookieConsent := by rw [threadsLoop_state]

/-! ## Votes on deleted comments

The cascade deletes a comment's votes in the same block that deletes the
comment, so any comment of the initial store that is gone afterwards has no
remaining votes targeting it.  `deadCommentVotesCleared` is the inductive
invariant carrying this across the walk. -/

/-- No remaining vote targets comment id `cid`. -/
def voteKeyCleared (db : DB) (cid : Nat) : Prop :=
  ∀ v ∈ db.votes, voteTargets v "comment" cid = false

/-- Every comment of `pre` missing from `cur` has its vote key cleared. -/
def deadCommentVotesCleared (pre cur : DB) : Prop :=
  ∀ c ∈ pre.comments, c ∉ cur.comments → voteKeyCleared cur c.id

theorem deadCommentVotesCleared_refl (pre : DB) : deadCommentVotesCleared pre pre := by
  intro c hc hnc
  exact absurd hc hnc

/-- Transport along a step that keeps `comments` and only shrinks `votes`. -/
theorem deadCommentVotesCleared_transport {pre db db2 : DB}
    (hJ : deadCommentVotesCleared pre db)
    (hc : db2.comments = db.comments)
    (hv : ∀ v ∈ db2.votes, v ∈ db.votes) :
    deadCommentVotesCleared pre db2 := by
  intro c hcpre hnc
  rw [hc] at hnc
  intro v hv2
  exact hJ c hcpre hnc v (hv v hv2)

/-- One comment block preserves the invariant. -/
theorem deadCommentVotesCleared_dcc {pre db : DB} (c : Comment)
    (hJ : deadCommentVotesCleared pre db) :
    deadCommentVotesCleared pre (deleteCommentCascade db c).1 := by
  intro c0 hc0 hnc
  by_cases hmem : c0 ∈ db.comments
  · -- removed by this very block, so its id matches the block's comment
    have hcid : c0.id = c.id := by
      by_contra hne
      apply hnc
      show c0 ∈ removeById Comment.id c.id db.comments
      exact List.mem_filter.mpr ⟨hmem, by simpa using hne⟩
    intro v hv
    have hv2 : v ∈ deleteRows Vote.id
        (db.votes.filter (fun v => voteTargets v "comment" c.id)) db.votes := hv
    have := deleteRows_self_clear Vote.id (fun v => voteTargets v "comment" c.id) hv2
    rw [hcid]
    exact this
  · intro v hv
    have hv2 : v ∈ deleteRows Vote.id
        (db.votes.filter (fun v => voteTargets v "comment" c.id)) db.votes := hv
    exact hJ c0 hc0 hmem v (mem_deleteRows Vote.id hv2).1

/-- `commentsLoop` preserves the invariant. -/
theorem deadCommentVotesCleared_commentsLoop {pre : DB} :
    ∀ (cs : List Comment) (db : DB), deadCommentVotesCleared pre db →
      deadCommentVotesCleared pre (commentsLoop db cs).1 := by
  intro cs
  induction cs with
  | nil => intro db hJ; exact hJ
  | cons c rest ih =>
    intro db hJ
    exact ih _ (deadCommentVotesCleared_dcc c hJ)

/-- `deletePostCascade` preserves the invariant. -/
theorem deadCommentVotesCleared_dpc {pre db : DB} (p : Post)
    (hJ : deadCommentVotesCleared pre db) :
    deadCommentVotesCleared pre (deletePostCascade db p).1 := by
  have h1 := deadCommentVotesCleared_commentsLoop
    (db.comments.filter (fun c => c.postId == p.id)) db hJ
  apply deadCommentVotesCleared_transport h1
  · simp [deletePostCascade]
  · intro v hv
    have hv2 : v ∈ deleteRows Vote.id
        ((commentsLoop db (db.comments.filter (fun c => c.postId == p.id))).1.votes.filter
          (fun v => voteTargets v "post" p.id))
        (commentsLoop db (db.comments.filter (fun c => c.postId == p.id))).1.votes := hv
    exact (mem_deleteRows Vote.id hv2).1

/-- `postsLoop` preserves the invariant. -/
theorem deadCommentVotesCleared_postsLoop {pre : DB} :
    ∀ (ps : List Post) (db : DB), deadCommentVotesCleared pre db →
      deadCommentVotesCleared pre (postsLoop db ps).1 := by
  intro ps
  induction ps with
  | nil => intro db hJ; exact hJ
  | cons p rest ih =>
    intro db hJ
    exact ih _ (deadCommentVotesCleared_dpc p hJ)

attribute [simp] commentsLoop_comments commentsLoop_posts commentsLoop_agents
  commentsLoop_connections commentsLoop_endorsements commentsLoop_messageThreads
  commentsLoop_messages commentsLoop_notifications commentsLoop_activityLog
  commentsLoop_inviteCodes commentsLoop_dataExportRequests
  commentsLoop_accountDeletionRequests commentsLoop_deletionAuditLog
  commentsLoop_cookieConsent
  postsLoop_posts postsLoop_agents postsLoop_connections postsLoop_endorsements
  postsLoop_messageThreads postsLoop_messages postsLoop_notifications
  postsLoop_activityLog postsLoop_inviteCodes postsLoop_dataExportRequests
  postsLoop_accountDeletionRequests postsLoop_deletionAuditLog postsLoop_cookieConsent
  threadsLoop_agents threadsLoop_posts threadsLoop_comments threadsLoop_votes
  threadsLoop_connections threadsLoop_endorsements threadsLoop_notifications
  threadsLoop_activityLog threadsLoop_inviteCodes threadsLoop_dataExportRequests
  threadsLoop_accountDeletionRequests threadsLoop_deletionAuditLog
  threadsLoop_cookieConsent

theorem getLast?_append_some {α : Type} {l2 : List α} {e : α}
    (h : l2.getLast? = some e) (l1 : List α) : (l1 ++ l2).getLast? = some e := by
  rw [List.getLast?_append, h]; rfl

/-! ## Per-step projection lemmas for the agent cascade

Each lemma projects one table through one step, so `simp` can normalise a
projection of `deleteAgentData` without expanding intermediate states. -/

@[simp] theorem stepSeq_fst (f g : DB → DB × List Ev) (db : DB) :
    (stepSeq f g db).1 = (g (f db).1).1 := rfl

@[simp] theorem stepSeq_snd (f g : DB → DB × List Ev) (db : DB) :
    (stepSeq f g db).2 = (f db).2 ++ (g (f db).1).2 := rfl

@[simp] theorem agentPostsStep_agents (a : Nat) (db : DB) :
    (agentPostsStep a db).1.agents = db.agents := postsLoop_agents _ db

@[simp] theorem agentPostsStep_connections (a : Nat) (db : DB) :
    (agentPostsStep a db).1.connections = db.connections := postsLoop_connections _ db

@[simp] theorem agentPostsStep_endorsements (a : Nat) (db : DB) :
    (agentPostsStep a db).1.endorsements = db.endorsements := postsLoop_endorsements _ db

@[simp] theorem agentPostsStep_messageThreads (a : Nat) (db : DB) :
    (agentPostsStep a db).1.messageThreads = db.messageThreads := postsLoop_messageThreads _ db

@[simp] theorem agentPostsStep_messages (a : Nat) (db : DB) :
    (agentPostsStep a db).1.messages = db.messages := postsLoop_messages _ db

@[simp] theorem agentPostsStep_notifications (a : Nat) (db : DB) :
    (agentPostsStep a db).1.notifications = db.notifications := postsLoop_notifications _ db

@[simp] theorem agentPostsStep_activityLog (a : Nat) (db : DB) :
    (agentPostsStep a db).1.activityLog = db.activityLog := postsLoop_activityLog _ db

@[simp] theorem agentPostsStep_inviteCodes (a : Nat) (db : DB) :
    (agentPostsStep a db).1.inviteCodes = db.inviteCodes := postsLoop_inviteCodes _ db

@[simp] theorem agentPostsStep_dataExportRequests (a : Nat) (db : DB) :
    (agentPostsStep a db).1.dataExportRequests = db.dataExportRequests := postsLoop_dataExportRequests _ db

@[simp] theorem agentPostsStep_accountDeletionRequests (a : Nat) (db : DB) :
    (agentPostsStep a db).1.accountDeletionRequests = db.accountDeletionRequests := postsLoop_accountDeletionRequests _ db

@[simp] theorem agentPostsStep_deletionAuditLog (a : Nat) (db : DB) :
    (agentPostsStep a db).1.deletionAuditLog = db.deletionAuditLog := postsLoop_deletionAuditLog _ db

@[simp] theorem agentPostsStep_cookieConsent (a : Nat) (db : DB) :
    (agentPostsStep a db).1.cookieConsent = db.cookieConsent := postsLoop_cookieConsent _ db

@[simp] theorem agentCommentsStep_agents (a : Nat) (db : DB) :
    (agentCommentsStep a db).1.agents = db.agents := commentsLoop_agents _ db

@[simp] theorem agentCommentsStep_posts (a : Nat) (db : DB) :
    (agentCommentsStep a db).1.posts = db.posts := commentsLoop_posts _ db

@[simp] theorem agentCommentsStep_connections (a : Nat) (db : DB) :
    (agentCommentsStep a db).1.connections = db.connections := commentsLoop_connections _ db

@[simp] theorem agentCommentsStep_endorsements (a : Nat) (db : DB) :
    (agentCommentsStep a db).1.endorsements = db.endorsements := commentsLoop_endorsements _ db

@[simp] theorem agentCommentsStep_messageThreads (a : Nat) (db : DB) :
    (agentCommentsStep a db).1.messageThreads = db.messageThreads := commentsLoop_messageThreads _ db

@[simp] theorem agentCommentsStep_messages (a : Nat) (db : DB) :
    (agentCommentsStep a db).1.messages = db.messages := commentsLoop_messages _ db

@[simp] theorem agentCommentsStep_notifications (a : Nat) (db : DB) :
    (agentCommentsStep a db).1.notifications = db.notifications := commentsLoop_notifications _ db

@[simp] theorem agentCommentsStep_activityLog (a : Nat) (db : DB) :
    (agentCommentsStep a db).1.activityLog = db.activityLog := commentsLoop_activityLog _ db

@[simp] theorem agentCommentsStep_inviteCodes (a : Nat) (db : DB) :
    (agentCommentsStep a db).1.inviteCodes = db.inviteCodes := commentsLoop_inviteCodes _ db

@[simp] theorem agentCommentsStep_dataExportRequests (a : Nat) (db : DB) :
    (agentCommentsStep a db).1.dataExportRequests = db.dataExportRequests := commentsLoop_dataExportRequests _ db

@[simp] theorem agentCommentsStep_accountDeletionRequests (a : Nat) (db : DB) :
    (agentCommentsStep a db).1.accountDeletionRequests = db.accountDeletionRequests := commentsLoop_accountDeletionRequests _ db

@[simp] theorem agentCommentsStep_deletionAuditLog (a : Nat) (db : DB) :
    (agentCommentsStep a db).1.deletionAuditLog = db.deletionAuditLog := commentsLoop_deletionAuditLog _ db

@[simp] theorem agentCommentsStep_cookieConsent (a : Nat) (db : DB) :
    (agentCommentsStep a db).1.cookieConsent = db.cookieConsent := commentsLoop_cookieConsent _ db

@[simp] theorem agentThreadsStep_agents (a : Nat) (db : DB) :
    (agentThreadsStep a db).1.agents = db.agents := threadsLoop_agents a _ db

@[simp] theorem agentThreadsStep_posts (a : Nat) (db : DB) :
    (agentThreadsStep a db).1.posts = db.posts := threadsLoop_posts a _ db

@[simp] theorem agentThreadsStep_comments (a : Nat) (db : DB) :
    (agentThreadsStep a db).1.comments = db.comments := threadsLoop_comments a _ db

@[simp] theorem agentThreadsStep_votes (a : Nat) (db : DB) :
    (agentThreadsStep a db).1.votes = db.votes := threadsLoop_votes a _ db

@[simp] theorem agentThreadsStep_connections (a : Nat) (db : DB) :
    (agentThreadsStep a db).1.connections = db.connections := threadsLoop_connections a _ db

@[simp] theorem agentThreadsStep_endorsements (a : Nat) (db : DB) :
    (agentThreadsStep a db).1.endorsements = db.endorsements := threadsLoop_endorsements a _ db

@[simp] theorem agentThreadsStep_notifications (a : Nat) (db : DB) :
    (agentThreadsStep a db).1.notifications = db.notifications := threadsLoop_notifications a _ db

@[simp] theorem agentThreadsStep_activityLog (a : Nat) (db : DB) :
    (agentThreadsStep a db).1.activityLog = db.activityLog := threadsLoop_activityLog a _ db

@[simp] theorem agentThreadsStep_inviteCodes (a : Nat) (db : DB) :
    (agentThreadsStep a db).1.inviteCodes = db.inviteCodes := threadsLoop_inviteCodes a _ db

@[simp] theorem agentThreadsStep_dataExportRequests (a : Nat) (db : DB) :
    (agentThreadsStep a db).1.dataExportRequests = db.dataExportRequests := threadsLoop_dataExportRequests a _ db

@[simp] theorem agentThreadsStep_accountDeletionRequests (a : Nat) (db : DB) :
    (agentThreadsStep a db).1.accountDeletionRequests = db.accountDeletionRequests := threadsLoop_accountDeletionRequests a _ db

@[simp] theorem agentThreadsStep_deletionAuditLog (a : Nat) (db : DB) :
    (agentThreadsStep a db).1.deletionAuditLog = db.deletionAuditLog := threadsLoop_deletionAuditLog a _ db

@[simp] theorem agentThreadsStep_cookieConsent (a : Nat) (db : DB) :
    (agentThreadsStep a db).1.cookieConsent = db.cookieConsent := threadsLoop_cookieConsent a _ db

@[simp] theorem agentVotesStep_agents (a : Nat) (db : DB) :
    (agentVotesStep a db).1.agents = db.agents := rfl

@[simp] theorem agentVotesStep_posts (a : Nat) (db : DB) :
    (agentVotesStep a db).1.posts = db.posts := rfl

@[simp] theorem agentVotesStep_comments (a : Nat) (db : DB) :
    (agentVotesStep a db).1.comments = db.comments := rfl

@[simp] theorem agentVotesStep_connections (a : Nat) (db : DB) :
    (agentVotesStep a db).1.connections = db.connections := rfl

@[simp] theorem agentVotesStep_endorsements (a : Nat) (db : DB) :
    (agentVotesStep a db).1.endorsements = db.endorsements := rfl

@[simp] theorem agentVotesStep_messageThreads (a : Nat) (db : DB) :
    (agentVotesStep a db).1.messageThreads = db.messageThreads := rfl

@[simp] theorem agentVotesStep_messages (a : Nat) (db : DB) :
    (agentVotesStep a db).1.messages = db.messages := rfl

@[simp] theorem agentVotesStep_notifications (a : Nat) (db : DB) :
    (agentVotesStep a db).1.notifications = db.notifications := rfl

@[simp] theorem agentVotesStep_activityLog (a : Nat) (db : DB) :
    (agentVotesStep a db).1.activityLog = db.activityLog := rfl

@[simp] theorem agentVotesStep_inviteCodes (a : Nat) (db : DB) :
    (agentVotesStep a db).1.inviteCodes = db.inviteCodes := rfl

@[simp] theorem agentVotesStep_dataExportRequests (a : Nat) (db : DB) :
    (agentVotesStep a db).1.dataExportRequests = db.dataExportRequests := rfl

@[simp] theorem agentVotesStep_accountDeletionRequests (a : Nat) (db : DB) :
    (agentVotesStep a db).1.accountDeletionRequests = db.accountDeletionRequests := rfl

@[simp] theorem agentVotesStep_deletionAuditLog (a : Nat) (db : DB) :
    (agentVotesStep a db).1.deletionAuditLog = db.deletionAuditLog := rfl

@[simp] theorem agentVotesStep_cookieConsent (a : Nat) (db : DB) :
    (agentVotesStep a db).1.cookieConsent = db.cookieConsent := rfl

@[simp] theorem agentConnectionsStep_agents (a : Nat) (db : DB) :
    (agentConnectionsStep a db).1.agents = db.agents := rfl

@[simp] theorem agentConnectionsStep_posts (a : Nat) (db : DB) :
    (agentConnectionsStep a db).1.posts = db.posts := rfl

@[simp] theorem agentConnectionsStep_comments (a : Nat) (db : DB) :
    (agentConnectionsStep a db).1.comments = db.comments := rfl

@[simp] theorem agentConnectionsStep_votes (a : Nat) (db : DB) :
    (agentConnectionsStep a db).1.votes = db.votes := rfl

@[simp] theorem agentConnectionsStep_endorsements (a : Nat) (db : DB) :
    (agentConnectionsStep a db).1.endorsements = db.endorsements := rfl

@[simp] theorem agentConnectionsStep_messageThreads (a : Nat) (db : DB) :
    (agentConnectionsStep a db).1.messageThreads = db.messageThreads := rfl

@[simp] theorem agentConnectionsStep_messages (a : Nat) (db : DB) :
    (agentConnectionsStep a db).1.messages = db.messages := rfl

@[simp] theorem agentConnectionsStep_notifications (a : Nat) (db : DB) :
    (agentConnectionsStep a db).1.notifications = db.notifications := rfl

@[simp] theorem agentConnectionsStep_activityLog (a : Nat) (db : DB) :
    (agentConnectionsStep a db).1.activityLog = db.activityLog := rfl

@[simp] theorem agentConnectionsStep_inviteCodes (a : Nat) (db : DB) :
    (agentConnectionsStep a db).1.inviteCodes = db.inviteCodes := rfl

@[simp] theorem agentConnectionsStep_dataExportRequests (a : Nat) (db : DB) :
    (agentConnectionsStep a db).1.dataExportRequests = db.dataExportRequests := rfl

@[simp] theorem agentConnectionsStep_accountDeletionRequests (a : Nat) (db : DB) :
    (agentConnectionsStep a db).1.accountDeletionRequests = db.accountDeletionRequests := rfl

@[simp] theorem agentConnectionsStep_deletionAuditLog (a : Nat) (db : DB) :
    (agentConnectionsStep a db).1.deletionAuditLog = db.deletionAuditLog := rfl

@[simp] theorem agentConnectionsStep_cookieConsent (a : Nat) (db : DB) :
    (agentConnectionsStep a db).1.cookieConsent = db.cookieConsent := rfl

@[simp] theorem agentEndorsementsStep_agents (a : Nat) (db : DB) :
    (agentEndorsementsStep a db).1.agents = db.agents := rfl

@[simp] theorem agentEndorsementsStep_posts (a : Nat) (db : DB) :
    (agentEndorsementsStep a db).1.posts = db.posts := rfl

@[simp] theorem agentEndorsementsStep_comments (a : Nat) (db : DB) :
    (agentEndorsementsStep a db).1.comments = db.comments := rfl

@[simp] theorem agentEndorsementsStep_votes (a : Nat) (db : DB) :
    (agentEndorsementsStep a db).1.votes = db.votes := rfl

@[simp] theorem agentEndorsementsStep_connections (a : Nat) (db : DB) :
    (agentEndorsementsStep a db).1.connections = db.connections := rfl

@[simp] theorem agentEndorsementsStep_messageThreads (a : Nat) (db : DB) :
    (agentEndorsementsStep a db).1.messageThreads = db.messageThreads := rfl

@[simp] theorem agentEndorsementsStep_messages (a : Nat) (db : DB) :
    (agentEndorsementsStep a db).1.messages = db.messages := rfl

@[simp] theorem agentEndorsementsStep_notifications (a : Nat) (db : DB) :
    (agentEndorsementsStep a db).1.notifications = db.notifications := rfl

@[simp] theorem agentEndorsementsStep_activityLog (a : Nat) (db : DB) :
    (agentEndorsementsStep a db).1.activityLog = db.activityLog := rfl

@[simp] theorem agentEndorsementsStep_inviteCodes (a : Nat) (db : DB) :
    (agentEndorsementsStep a db).1.inviteCodes = db.inviteCodes := rfl

@[simp] theorem agentEndorsementsStep_dataExportRequests (a : Nat) (db : DB) :
    (agentEndorsementsStep a db).1.dataExportRequests = db.dataExportRequests := rfl

@[simp] theorem agentEndorsementsStep_accountDeletionRequests (a : Nat) (db : DB) :
    (agentEndorsementsStep a db).1.accountDeletionRequests = db.accountDeletionRequests := rfl

@[simp] theorem agentEndorsementsStep_deletionAuditLog (a : Nat) (db : DB) :
    (agentEndorsementsStep a db).1.deletionAuditLog = db.deletionAuditLog := rfl

@[simp] theorem agentEndorsementsStep_cookieConsent (a : Nat) (db : DB) :
    (agentEndorsementsStep a db).1.cookieConsent = db.cookieConsent := rfl

@[simp] theorem agentNotificationsStep_agents (a : Nat) (db : DB) :
    (agentNotificationsStep a db).1.agents = db.agents := rfl

@[simp] theorem agentNotificationsStep_posts (a : Nat) (db : DB) :
    (agentNotificationsStep a db).1.posts = db.posts := rfl

@[simp] theorem agentNotificationsStep_comments (a : Nat) (db : DB) :
    (agentNotificationsStep a db).1.comments = db.comments := rfl

@[simp] theorem agentNotificationsStep_votes (a : Nat) (db : DB) :
    (agentNotificationsStep a db).1.votes = db.votes := rfl

@[simp] theorem agentNotificationsStep_connections (a : Nat) (db : DB) :
    (agentNotificationsStep a db).1.connections = db.connections := rfl

@[simp] theorem agentNotificationsStep_endorsements (a : Nat) (db : DB) :
    (agentNotificationsStep a db).1.endorsements = db.endorsements := rfl

@[simp] theorem agentNotificationsStep_messageThreads (a : Nat) (db : DB) :
    (agentNotificationsStep a db).1.messageThreads = db.messageThreads := rfl

@[simp] theorem agentNotificationsStep_messages (a : Nat) (db : DB) :
    (agentNotificationsStep a db).1.messages = db.messages := rfl

@[simp] theorem agentNotificationsStep_activityLog (a : Nat) (db : DB) :
    (agentNotificationsStep a db).1.activityLog = db.activityLog := rfl

@[simp] theorem agentNotificationsStep_inviteCodes (a : Nat) (db : DB) :
    (agentNotificationsStep a db).1.inviteCodes = db.inviteCodes := rfl

@[simp] theorem agentNotificationsStep_dataExportRequests (a : Nat) (db : DB) :
    (agentNotificationsStep a db).1.dataExportRequests = db.dataExportRequests := rfl

@[simp] theorem agentNotificationsStep_accountDeletionRequests (a : Nat) (db : DB) :
    (agentNotificationsStep a db).1.accountDeletionRequests = db.accountDeletionRequests := rfl

@[simp] theorem agentNotificationsStep_deletionAuditLog (a : Nat) (db : DB) :
    (agentNotificationsStep a db).1.deletionAuditLog = db.deletionAuditLog := rfl

@[simp] theorem agentNotificationsStep_cookieConsent (a : Nat) (db : DB) :
    (agentNotificationsStep a db).1.cookieConsent = db.cookieConsent := rfl

@[simp] theorem agentActivityStep_agents (a : Nat) (db : DB) :
    (agentActivityStep a db).1.agents = db.agents := rfl

@[simp] theorem agentActivityStep_posts (a : Nat) (db : DB) :
    (agentActivityStep a db).1.posts = db.posts := rfl

@[simp] theorem agentActivityStep_comments (a : Nat) (db : DB) :
    (agentActivityStep a db).1.comments = db.comments := rfl

@[simp] theorem agentActivityStep_votes (a : Nat) (db : DB) :
    (agentActivityStep a db).1.votes = db.votes := rfl

@[simp] theorem agentActivityStep_connections (a : Nat) (db : DB) :
    (agentActivityStep a db).1.connections = db.connections := rfl

@[simp] theorem agentActivityStep_endorsements (a : Nat) (db : DB) :
    (agentActivityStep a db).1.endorsements = db.endorsements := rfl

@[simp] theorem agentActivityStep_messageThreads (a : Nat) (db : DB) :
    (agentActivityStep a db).1.messageThreads = db.messageThreads := rfl

@[simp] theorem agentActivityStep_messages (a : Nat) (db : DB) :
    (agentActivityStep a db).1.messages = db.messages := rfl

@[simp] theorem agentActivityStep_notifications (a : Nat) (db : DB) :
    (agentActivityStep a db).1.notifications = db.notifications := rfl

@[simp] theorem agentActivityStep_inviteCodes (a : Nat) (db : DB) :
    (agentActivityStep a db).1.inviteCodes = db.inviteCodes := rfl

@[simp] theorem agentActivityStep_dataExportRequests (a : Nat) (db : DB) :
    (agentActivityStep a db).1.dataExportRequests = db.dataExportRequests := rfl

@[simp] theorem agentActivityStep_accountDeletionRequests (a : Nat) (db : DB) :
    (agentActivityStep a db).1.accountDeletionRequests = db.accountDeletionRequests := rfl

@[simp] theorem agentActivityStep_deletionAuditLog (a : Nat) (db : DB) :
    (agentActivityStep a db).1.deletionAuditLog = db.deletionAuditLog := rfl

@[simp] theorem agentActivityStep_cookieConsent (a : Nat) (db : DB) :
    (agentActivityStep a db).1.cookieConsent = db.cookieConsent := rfl

@[simp] theorem agentInviteCodesStep_agents (a : Nat) (db : DB) :
    (agentInviteCodesStep a db).1.agents = db.agents := rfl

@[simp] theorem agentInviteCodesStep_posts (a : Nat) (db : DB) :
    (agentInviteCodesStep a db).1.posts = db.posts := rfl

@[simp] theorem agentInviteCodesStep_comments (a : Nat) (db : DB) :
    (agentInviteCodesStep a db).1.comments = db.comments := rfl

@[simp] theorem agentInviteCodesStep_votes (a : Nat) (db : DB) :
    (agentInviteCodesStep a db).1.votes = db.votes := rfl

@[simp] theorem agentInviteCodesStep_connections (a : Nat) (db : DB) :
    (agentInviteCodesStep a db).1.connections = db.connections := rfl

@[simp] theorem agentInviteCodesStep_endorsements (a : Nat) (db : DB) :
    (agentInviteCodesStep a db).1.endorsements = db.endorsements := rfl

@[simp] theorem agentInviteCodesStep_messageThreads (a : Nat) (db : DB) :
    (agentInviteCodesStep a db).1.messageThreads = db.messageThreads := rfl

@[simp] theorem agentInviteCodesStep_messages (a : Nat) (db : DB) :
    (agentInviteCodesStep a db).1.messages = db.messages := rfl

@[simp] theorem agentInviteCodesStep_notifications (a : Nat) (db : DB) :
    (agentInviteCodesStep a db).1.notifications = db.notifications := rfl

@[simp] theorem agentInviteCodesStep_activityLog (a : Nat) (db : DB) :
    (agentInviteCodesStep a db).1.activityLog = db.activityLog := rfl

@[simp] theorem agentInviteCodesStep_dataExportRequests (a : Nat) (db : DB) :
    (agentInviteCodesStep a db).1.dataExportRequests = db.dataExportRequests := rfl

@[simp] theorem agentInviteCodesStep_accountDeletionRequests (a : Nat) (db : DB) :
    (agentInviteCodesStep a db).1.accountDeletionRequests = db.accountDeletionRequests := rfl

@[simp] theorem agentInviteCodesStep_deletionAuditLog (a : Nat) (db : DB) :
    (agentInviteCodesStep a db).1.deletionAuditLog = db.deletionAuditLog := rfl

@[simp] theorem agentInviteCodesStep_cookieConsent (a : Nat) (db : DB) :
    (agentInviteCodesStep a db).1.cookieConsent = db.cookieConsent := rfl

@[simp] theorem agentExportsStep_agents (a : Nat) (db : DB) :
    (agentExportsStep a db).1.agents = db.agents := rfl

@[simp] theorem agentExportsStep_posts (a : Nat) (db : DB) :
    (agentExportsStep a db).1.posts = db.posts := rfl

@[simp] theorem agentExportsStep_comments (a : Nat) (db : DB) :
    (agentExportsStep a db).1.comments = db.comments := rfl

@[simp] theorem agentExportsStep_votes (a : Nat) (db : DB) :
    (agentExportsStep a db).1.votes = db.votes := rfl

@[simp] theorem agentExportsStep_connections (a : Nat) (db : DB) :
    (agentExportsStep a db).1.connections = db.connections := rfl

@[simp] theorem agentExportsStep_endorsements (a : Nat) (db : DB) :
    (agentExportsStep a db).1.endorsements = db.endorsements := rfl

@[simp] theorem agentExportsStep_messageThreads (a : Nat) (db : DB) :
    (agentExportsStep a db).1.messageThreads = db.messageThreads := rfl

@[simp] theorem agentExportsStep_messages (a : Nat) (db : DB) :
    (agentExportsStep a db).1.messages = db.messages := rfl

@[simp] theorem agentExportsStep_notifications (a : Nat) (db : DB) :
    (agentExportsStep a db).1.notifications = db.notifications := rfl

@[simp] theorem agentExportsStep_activityLog (a : Nat) (db : DB) :
    (agentExportsStep a db).1.activityLog = db.activityLog := rfl

@[simp] theorem agentExportsStep_inviteCodes (a : Nat) (db : DB) :
    (agentExportsStep a db).1.inviteCodes = db.inviteCodes := rfl

@[simp] theorem agentExportsStep_accountDeletionRequests (a : Nat) (db : DB) :
    (agentExportsStep a db).1.accountDeletionRequests = db.accountDeletionRequests := rfl

@[simp] theorem agentExportsStep_deletionAuditLog (a : Nat) (db : DB) :
    (agentExportsStep a db).1.deletionAuditLog = db.deletionAuditLog := rfl

@[simp] theorem agentExportsStep_cookieConsent (a : Nat) (db : DB) :
    (agentExportsStep a db).1.cookieConsent = db.cookieConsent := rfl

@[simp] theorem agentRowStep_posts (a : Nat) (db : DB) :
    (agentRowStep a db).1.posts = db.posts := rfl

@[simp] theorem agentRowStep_comments (a : Nat) (db : DB) :
    (agentRowStep a db).1.comments = db.comments := rfl

@[simp] theorem agentRowStep_votes (a : Nat) (db : DB) :
    (agentRowStep a db).1.votes = db.votes := rfl

@[simp] theorem agentRowStep_connections (a : Nat) (db : DB) :
    (agentRowStep a db).1.connections = db.connections := rfl

@[simp] theorem agentRowStep_endorsements (a : Nat) (db : DB) :
    (agentRowStep a db).1.endorsements = db.endorsements := rfl

@[simp] theorem agentRowStep_messageThreads (a : Nat) (db : DB) :
    (agentRowStep a db).1.messageThreads = db.messageThreads := rfl

@[simp] theorem agentRowStep_messages (a : Nat) (db : DB) :
    (agentRowStep a db).1.messages = db.messages := rfl

@[simp] theorem agentRowStep_notifications (a : Nat) (db : DB) :
    (agentRowStep a db).1.notifications = db.notifications := rfl

@[simp] theorem agentRowStep_activityLog (a : Nat) (db : DB) :
    (agentRowStep a db).1.activityLog = db.activityLog := rfl

@[simp] theorem agentRowStep_inviteCodes (a : Nat) (db : DB) :
    (agentRowStep a db).1.inviteCodes = db.inviteCodes := rfl

@[simp] theorem agentRowStep_dataExportRequests (a : Nat) (db : DB) :
    (agentRowStep a db).1.dataExportRequests = db.dataExportRequests := rfl

@[simp] theorem agentRowStep_accountDeletionRequests (a : Nat) (db : DB) :
    (agentRowStep a db).1.accountDeletionRequests = db.accountDeletionRequests := rfl

@[simp] theorem agentRowStep_deletionAuditLog (a : Nat) (db : DB) :
    (agentRowStep a db).1.deletionAuditLog = db.deletionAuditLog := rfl

@[simp] theorem agentRowStep_cookieConsent (a : Nat) (db : DB) :
    (agentRowStep a db).1.cookieConsent = db.cookieConsent := rfl

@[simp] theorem agentPostsStep_posts (a : Nat) (db : DB) :
    (agentPostsStep a db).1.posts =
      deleteRows Post.id (db.posts.filter (fun p => p.agentId == a)) db.posts :=
  postsLoop_posts _ db

@[simp] theorem agentCommentsStep_comments (a : Nat) (db : DB) :
    (agentCommentsStep a db).1.comments =
      deleteRows Comment.id (db.comments.filter (fun c => c.agentId == a)) db.comments :=
  commentsLoop_comments _ db

@[simp] theorem agentVotesStep_votes (a : Nat) (db : DB) :
    (agentVotesStep a db).1.votes =
      deleteRows Vote.id (db.votes.filter (fun v => v.agentId == a)) db.votes := rfl

@[simp] theorem agentConnectionsStep_connections (a : Nat) (db : DB) :
    (agentConnectionsStep a db).1.connections =
      deleteRows Connection.id
        ((deleteRows Connection.id (db.connections.filter (fun c => c.fromAgentId == a))
            db.connections).filter (fun c => c.toAgentId == a))
        (deleteRows Connection.id (db.connections.filter (fun c => c.fromAgentId == a))
          db.connections) := rfl

@[simp] theorem agentEndorsementsStep_endorsements (a : Nat) (db : DB) :
    (agentEndorsementsStep a db).1.endorsements =
      deleteRows Endorsement.id
        ((deleteRows Endorsement.id (db.endorsements.filter (fun e => e.fromAgentId == a))
            db.endorsements).filter (fun e => e.toAgentId == a))
        (deleteRows Endorsement.id (db.endorsements.filter (fun e => e.fromAgentId == a))
          db.endorsements) := rfl

@[simp] theorem agentNotificationsStep_notifications (a : Nat) (db : DB) :
    (agentNotificationsStep a db).1.notifications =
      deleteRows Notification.id (db.notifications.filter (fun n => n.agentId == a))
        db.notifications := rfl

@[simp] theorem agentActivityStep_activityLog (a : Nat) (db : DB) :
    (agentActivityStep a db).1.activityLog =
      deleteRows ActivityLogEntry.id (db.activityLog.filter (fun e => e.agentId == a))
        db.activityLog := rfl

@[simp] theorem agentInviteCodesStep_inviteCodes (a : Nat) (db : DB) :
    (agentInviteCodesStep a db).1.inviteCodes =
      deleteRows InviteCode.id (db.inviteCodes.filter (fun i => i.createdByAgentId == a))
        db.inviteCodes := rfl

@[simp] theorem agentExportsStep_dataExportRequests (a : Nat) (db : DB) :
    (agentExportsStep a db).1.dataExportRequests =
      deleteRows DataExportRequest.id
        (db.dataExportRequests.filter (fun r => r.agentId == a))
        db.dataExportRequests := rfl

@[simp] theorem agentRowStep_agents (a : Nat) (db : DB) :
    (agentRowStep a db).1.agents = removeById Agent.id a db.agents := rfl

/-- **C1** — After the agent cascade (`deleteAgentData`, as run for each
request by `processPendingDeletions`), every dependent collection queried by
the agent id is empty: the agent's posts (with their comments and all votes
on those posts and comments), the agent's comments on other posts (with
their votes), the agent's votes, connections in both directions,
endorsements in both directions, every message thread the agent participates
in together with all its messages, the agent's notifications, activity-log
entries, invite codes, and data-export requests are gone — and the event
trace shows the agent row itself is deleted last. -/
theorem C1_agent_cascade_completeness (db : DB) (a : Nat) :
    (∀ p ∈ (deleteAgentData db a).1.posts, p.agentId ≠ a) ∧
    (∀ c ∈ (deleteAgentData db a).1.comments, c.agentId ≠ a) ∧
    (∀ p ∈ db.posts, p.agentId = a →
      (∀ c ∈ (deleteAgentData db a).1.comments, c.postId ≠ p.id) ∧
      (∀ v ∈ (deleteAgentData db a).1.votes, voteTargets v "post" p.id = false)) ∧
    (∀ c ∈ db.comments,
      (c.agentId = a ∨ ∃ p ∈ db.posts, p.agentId = a ∧ c.postId = p.id) →
      ∀ v ∈ (deleteAgentData db a).1.votes, voteTargets v "comment" c.id = false) ∧
    (∀ v ∈ (deleteAgentData db a).1.votes, v.agentId ≠ a) ∧
    (∀ cn ∈ (deleteAgentData db a).1.connections, cn.fromAgentId ≠ a ∧ cn.toAgentId ≠ a) ∧
    (∀ e ∈ (deleteAgentData db a).1.endorsements, e.fromAgentId ≠ a ∧ e.toAgentId ≠ a) ∧
    (∀ th ∈ (deleteAgentData db a).1.messageThreads, th.participantIds.contains a = false) ∧
    (∀ th ∈ db.messageThreads, th.participantIds.contains a = true →
      ∀ m ∈ (deleteAgentData db a).1.messages, m.threadId ≠ th.id) ∧
    (∀ n ∈ (deleteAgentData db a).1.notifications, n.agentId ≠ a) ∧
    (∀ e ∈ (deleteAgentData db a).1.activityLog, e.agentId ≠ a) ∧
    (∀ i ∈ (deleteAgentData db a).1.inviteCodes, i.createdByAgentId ≠ a) ∧
    (∀ r ∈ (deleteAgentData db a).1.dataExportRequests, r.agentId ≠ a) ∧
    (∀ ag ∈ (deleteAgentData db a).1.agents, ag.id ≠ a) ∧
    (deleteAgentData db a).2.getLast? = some (Ev.deleted "agents" a) := by
  refine ⟨?_, ?_, ?_, ?_, ?_, ?_, ?_, ?_, ?_, ?_, ?_, ?_, ?_, ?_, ?_⟩
  · -- posts
    intro p hp
    simp only [deleteAgentData, stepSeq_fst] at hp
    rw [agentRowStep_posts, agentExportsStep_posts, agentInviteCodesStep_posts, agentActivityStep_posts, agentNotificationsStep_posts, agentThreadsStep_posts, agentEndorsementsStep_posts, agentConnectionsStep_posts, agentVotesStep_posts, agentCommentsStep_posts, agentPostsStep_posts] at hp
    exact beq_eq_false_iff_ne.mp
      (deleteRows_self_clear Post.id (fun p => p.agentId == a) hp)
  · -- agent comments
    intro c hc
    simp only [deleteAgentData, stepSeq_fst] at hc
    rw [agentRowStep_comments, agentExportsStep_comments, agentInviteCodesStep_comments, agentActivityStep_comments, agentNotificationsStep_comments, agentThreadsStep_comments, agentEndorsementsStep_comments, agentConnectionsStep_comments, agentVotesStep_comments, agentCommentsStep_comments] at hc
    exact beq_eq_false_iff_ne.mp
      (deleteRows_self_clear Comment.id (fun c => c.agentId == a) hc)
  · -- comments and votes on the agent posts
    intro p hp hpa
    have hpsel : p ∈ db.posts.filter (fun p => p.agentId == a) :=
      List.mem_filter.mpr ⟨hp, by simp [hpa]⟩
    constructor
    · intro c hc
      simp only [deleteAgentData, stepSeq_fst] at hc
      rw [agentRowStep_comments, agentExportsStep_comments, agentInviteCodesStep_comments, agentActivityStep_comments, agentNotificationsStep_comments, agentThreadsStep_comments, agentEndorsementsStep_comments, agentConnectionsStep_comments, agentVotesStep_comments, agentCommentsStep_comments] at hc
      have hc1 := (mem_deleteRows Comment.id hc).1
      exact beq_eq_false_iff_ne.mp (postsLoop_comments_clear _ db hpsel c hc1)
    · intro v hv
      simp only [deleteAgentData, stepSeq_fst] at hv
      rw [agentRowStep_votes, agentExportsStep_votes, agentInviteCodesStep_votes, agentActivityStep_votes, agentNotificationsStep_votes, agentThreadsStep_votes, agentEndorsementsStep_votes, agentConnectionsStep_votes, agentVotesStep_votes] at hv
      have hv1 := (mem_deleteRows Vote.id hv).1
      have hv2 := commentsLoop_votes_mem _ _ hv1
      exact postsLoop_post_votes_clear _ db hpsel v hv2
  · -- votes on the agent comments and on comments of the agent posts
    intro c hc hor v hv
    have hJ1 : deadCommentVotesCleared db (agentPostsStep a db).1 :=
      deadCommentVotesCleared_postsLoop _ db (deadCommentVotesCleared_refl db)
    have hJ2 : deadCommentVotesCleared db
        (agentCommentsStep a (agentPostsStep a db).1).1 :=
      deadCommentVotesCleared_commentsLoop _ _ hJ1
    have hJ : deadCommentVotesCleared db (deleteAgentData db a).1 := by
      apply deadCommentVotesCleared_transport hJ2
      · show (deleteAgentData db a).1.comments = _
        simp only [deleteAgentData, stepSeq_fst]
        rw [agentRowStep_comments, agentExportsStep_comments, agentInviteCodesStep_comments, agentActivityStep_comments, agentNotificationsStep_comments, agentThreadsStep_comments, agentEndorsementsStep_comments, agentConnectionsStep_comments, agentVotesStep_comments, agentCommentsStep_comments]
      · intro w hw
        simp only [deleteAgentData, stepSeq_fst] at hw
        rw [agentRowStep_votes, agentExportsStep_votes, agentInviteCodesStep_votes, agentActivityStep_votes, agentNotificationsStep_votes, agentThreadsStep_votes, agentEndorsementsStep_votes, agentConnectionsStep_votes, agentVotesStep_votes] at hw
        exact (mem_deleteRows Vote.id hw).1
    have hnc : c ∉ (deleteAgentData db a).1.comments := by
      intro hcmem
      simp only [deleteAgentData, stepSeq_fst] at hcmem
      rw [agentRowStep_comments, agentExportsStep_comments, agentInviteCodesStep_comments, agentActivityStep_comments, agentNotificationsStep_comments, agentThreadsStep_comments, agentEndorsementsStep_comments, agentConnectionsStep_comments, agentVotesStep_comments, agentCommentsStep_comments] at hcmem
      rcases hor with ha | ⟨p, hp, hpa, hcp⟩
      · have := deleteRows_self_clear Comment.id (fun c => c.agentId == a) hcmem
        simp [ha] at this
      · have hc1 := (mem_deleteRows Comment.id hcmem).1
        have hpsel : p ∈ db.posts.filter (fun p => p.agentId == a) :=
          List.mem_filter.mpr ⟨hp, by simp [hpa]⟩
        have := postsLoop_comments_clear _ db hpsel c hc1
        simp [hcp] at this
    exact hJ c hc hnc v hv
  · -- agent votes
    intro v hv
    simp only [deleteAgentData, stepSeq_fst] at hv
    rw [agentRowStep_votes, agentExportsStep_votes, agentInviteCodesStep_votes, agentActivityStep_votes, agentNotificationsStep_votes, agentThreadsStep_votes, agentEndorsementsStep_votes, agentConnectionsStep_votes, agentVotesStep_votes] at hv
    exact beq_eq_false_iff_ne.mp
      (deleteRows_self_clear Vote.id (fun v => v.agentId == a) hv)
  · -- connections, both directions
    intro cn hcn
    simp only [deleteAgentData, stepSeq_fst] at hcn
    rw [agentRowStep_connections, agentExportsStep_connections, agentInviteCodesStep_connections, agentActivityStep_connections, agentNotificationsStep_connections, agentThreadsStep_connections, agentEndorsementsStep_connections, agentConnectionsStep_connections, agentVotesStep_connections, agentCommentsStep_connections, agentPostsStep_connections] at hcn
    constructor
    · have h1 := (mem_deleteRows Connection.id hcn).1
      exact beq_eq_false_iff_ne.mp
        (deleteRows_self_clear Connection.id (fun c => c.fromAgentId == a) h1)
    · exact beq_eq_false_iff_ne.mp
        (deleteRows_self_clear Connection.id (fun c => c.toAgentId == a) hcn)
  · -- endorsements, both directions
    intro e he
    simp only [deleteAgentData, stepSeq_fst] at he
    rw [agentRowStep_endorsements, agentExportsStep_endorsements, agentInviteCodesStep_endorsements, agentActivityStep_endorsements, agentNotificationsStep_endorsements, agentThreadsStep_endorsements, agentEndorsementsStep_endorsements, agentConnectionsStep_endorsements, agentVotesStep_endorsements, agentCommentsStep_endorsements, agentPostsStep_endorsements] at he
    constructor
    · have h1 := (mem_deleteRows Endorsement.id he).1
      exact beq_eq_false_iff_ne.mp
        (deleteRows_self_clear Endorsement.id (fun e => e.fromAgentId == a) h1)
    · exact beq_eq_false_iff_ne.mp
        (deleteRows_self_clear Endorsement.id (fun e => e.toAgentId == a) he)
  · -- threads the agent participates in
    intro th hth
    simp only [deleteAgentData, stepSeq_fst] at hth
    rw [agentRowStep_messageThreads, agentExportsStep_messageThreads, agentInviteCodesStep_messageThreads, agentActivityStep_messageThreads, agentNotificationsStep_messageThreads] at hth
    obtain ⟨hmem, hclear⟩ := threadsLoop_threads_mem a _ _ hth
    exact hclear hmem
  · -- messages of those threads
    intro th hth hpart m hm
    simp only [deleteAgentData, stepSeq_fst] at hm
    rw [agentRowStep_messages, agentExportsStep_messages, agentInviteCodesStep_messages, agentActivityStep_messages, agentNotificationsStep_messages] at hm
    refine beq_eq_false_iff_ne.mp
      (threadsLoop_messages_clear a _ _ ?_ hpart m hm)
    rw [agentEndorsementsStep_messageThreads, agentConnectionsStep_messageThreads,
      agentVotesStep_messageThreads, agentCommentsStep_messageThreads,
      agentPostsStep_messageThreads]
    exact hth
  · -- notifications
    intro n hn
    simp only [deleteAgentData, stepSeq_fst] at hn
    rw [agentRowStep_notifications, agentExportsStep_notifications, agentInviteCodesStep_notifications, agentActivityStep_notifications, agentNotificationsStep_notifications, agentThreadsStep_notifications, agentEndorsementsStep_notifications, agentConnectionsStep_notifications, agentVotesStep_notifications, agentCommentsStep_notifications, agentPostsStep_notifications] at hn
    exact beq_eq_false_iff_ne.mp
      (deleteRows_self_clear Notification.id (fun n => n.agentId == a) hn)
  · -- activity-log entries
    intro e he
    simp only [deleteAgentData, stepSeq_fst] at he
    rw [agentRowStep_activityLog, agentExportsStep_activityLog, agentInviteCodesStep_activityLog, agentActivityStep_activityLog, agentNotificationsStep_activityLog, agentThreadsStep_activityLog, agentEndorsementsStep_activityLog, agentConnectionsStep_activityLog, agentVotesStep_activityLog, agentCommentsStep_activityLog, agentPostsStep_activityLog] at he
    exact beq_eq_false_iff_ne.mp
      (deleteRows_self_clear ActivityLogEntry.id (fun e => e.agentId == a) he)
  · -- invite codes
    intro i hi
    simp only [deleteAgentData, stepSeq_fst] at hi
    rw [agentRowStep_inviteCodes, agentExportsStep_inviteCodes, agentInviteCodesStep_inviteCodes, agentActivityStep_inviteCodes, agentNotificationsStep_inviteCodes, agentThreadsStep_inviteCodes, agentEndorsementsStep_inviteCodes, agentConnectionsStep_inviteCodes, agentVotesStep_inviteCodes, agentCommentsStep_inviteCodes, agentPostsStep_inviteCodes] at hi
    exact beq_eq_false_iff_ne.mp
      (deleteRows_self_clear InviteCode.id (fun i => i.createdByAgentId == a) hi)
  · -- data-export requests
    intro r hr
    simp only [deleteAgentData, stepSeq_fst] at hr
    rw [agentRowStep_dataExportRequests, agentExportsStep_dataExportRequests, agentInviteCodesStep_dataExportRequests, agentActivityStep_dataExportRequests, agentNotificationsStep_dataExportRequests, agentThreadsStep_dataExportRequests, agentEndorsementsStep_dataExportRequests, agentConnectionsStep_dataExportRequests, agentVotesStep_dataExportRequests, agentCommentsStep_dataExportRequests, agentPostsStep_dataExportRequests] at hr
    exact beq_eq_false_iff_ne.mp
      (deleteRows_self_clear DataExportRequest.id (fun r => r.agentId == a) hr)
  · -- the agent row itself
    intro ag hag
    simp only [deleteAgentData, stepSeq_fst] at hag
    rw [agentRowStep_agents, agentExportsStep_agents, agentInviteCodesStep_agents, agentActivityStep_agents, agentNotificationsStep_agents, agentThreadsStep_agents, agentEndorsementsStep_agents, agentConnectionsStep_agents, agentVotesStep_agents, agentCommentsStep_agents, agentPostsStep_agents] at hag
    exact (mem_removeById Agent.id a hag).2
  · -- the agent row is deleted last
    simp only [deleteAgentData, stepSeq_snd]
    repeat
      apply getLast?_append_some _
    rfl

/-! ## Trace structure of the post cascade -/

/-- One comment block: its votes first, then the comment. -/
theorem deleteCommentCascade_trace (db : DB) (c : Comment) :
    (deleteCommentCascade db c).2 =
      Ev.indexedQuery "votes" ::
        (db.votes.filter (fun v => voteTargets v "comment" c.id)).map
          (fun v => Ev.deleted "votes" v.id)
      ++ [Ev.deleted "comments" c.id] := rfl

/-- One post block: the comment phase, then the votes on the post, then the
post itself. -/
theorem deletePostCascade_trace (db : DB) (p : Post) :
    (deletePostCascade db p).2 =
      Ev.indexedQuery "comments" ::
        (commentsLoop db (db.comments.filter (fun c => c.postId == p.id))).2
      ++ Ev.indexedQuery "votes" ::
        ((commentsLoop db (db.comments.filter (fun c => c.postId == p.id))).1.votes.filter
          (fun v => voteTargets v "post" p.id)).map (fun v => Ev.deleted "votes" v.id)
      ++ [Ev.deleted "posts" p.id] := rfl

/-- The run trace around one selected post decomposes into the prefix for the
earlier posts, that post's cascade block, and the remainder. -/
theorem postsLoop_trace_split (p : Post) (l2 : List Post) :
    ∀ (l1 : List Post) (db : DB),
      (postsLoop db (l1 ++ p :: l2)).2 =
        (postsLoop db l1).2
        ++ (deletePostCascade (postsLoop db l1).1 p).2
        ++ (postsLoop (deletePostCascade (postsLoop db l1).1 p).1 l2).2 := by
  intro l1
  induction l1 with
  | nil => intro db; simp [postsLoop]
  | cons q rest ih =>
    intro db
    simp only [List.cons_append, postsLoop, List.append_eq]
    rw [ih (deletePostCascade db q).1]
    simp [List.append_assoc]

/-- The empty store, used to build concrete witnesses. -/
def emptyDB : DB :=
  { agents := [], posts := [], comments := [], votes := [], connections := []
    endorsements := [], messageThreads := [], messages := [], notifications := []
    activityLog := [], inviteCodes := [], dataExportRequests := []
    accountDeletionRequests := [], deletionAuditLog := [], cookieConsent := [] }

/-- **C2** — A run of the soft-deleted-post purge that selects post `P`
(soft-deleted strictly more than 30 days before `now`) deletes, in order,
the votes on each of `P`'s comments, then `P`'s comments, then the votes on
`P`, then `P`; afterwards no comment or vote referencing `P` (or votes
referencing its former comments) remains, and the run appends exactly one
audit entry whose `targetCount` is the number of posts removed, not the
total number of rows touched. -/
theorem C2_post_purge_cascade (now : Nat) (db : DB) (P : Post)
    (hP : P ∈ selectPostsToDelete now db) :
    (∃ t, P.deletedAt = some t ∧ t < now - RETENTION_PERIODS.softDeletedPosts) ∧
    (∃ t1 t2 dbMid,
      (permanentlyDeleteOldPosts now db).2.1 =
        t1 ++ (deletePostCascade dbMid P).2 ++ t2 ∧
      (deletePostCascade dbMid P).2 =
        Ev.indexedQuery "comments" ::
          (commentsLoop dbMid (dbMid.comments.filter (fun c => c.postId == P.id))).2
        ++ Ev.indexedQuery "votes" ::
          ((commentsLoop dbMid
              (dbMid.comments.filter (fun c => c.postId == P.id))).1.votes.filter
            (fun v => voteTargets v "post" P.id)).map (fun v => Ev.deleted "votes" v.id)
        ++ [Ev.deleted "posts" P.id]) ∧
    (∀ (d : DB) (c : Comment), (deleteCommentCascade d c).2 =
      Ev.indexedQuery "votes" ::
        (d.votes.filter (fun v => voteTargets v "comment" c.id)).map
          (fun v => Ev.deleted "votes" v.id)
      ++ [Ev.deleted "comments" c.id]) ∧
    (∀ c ∈ (permanentlyDeleteOldPosts now db).1.comments, c.postId ≠ P.id) ∧
    (∀ v ∈ (permanentlyDeleteOldPosts now db).1.votes,
      voteTargets v "post" P.id = false) ∧
    (∀ c ∈ db.comments, c.postId = P.id →
      ∀ v ∈ (permanentlyDeleteOldPosts now db).1.votes,
        voteTargets v "comment" c.id = false) ∧
    (∀ q ∈ (permanentlyDeleteOldPosts now db).1.posts, q.id ≠ P.id) ∧
    (∃ e, (permanentlyDeleteOldPosts now db).1.deletionAuditLog =
        db.deletionAuditLog ++ [e] ∧
      e.targetCount = (selectPostsToDelete now db).length ∧
      e.targetCount = (permanentlyDeleteOldPosts now db).2.2.deleted) := by
  have hmemsel := hP
  have hne : ¬ ((selectPostsToDelete now db).length = 0) := by
    intro h0
    rw [List.length_eq_zero] at h0
    rw [h0] at hmemsel
    exact absurd hmemsel (List.not_mem_nil P)
  refine ⟨?_, ?_, ?_, ?_, ?_, ?_, ?_, ?_⟩
  · -- the selection predicate really holds of P
    have h1 := List.mem_of_mem_take hP
    have h2 := (List.mem_filter.mp h1).2
    cases hdel : P.deletedAt with
    | none => rw [hdel] at h2; simp at h2
    | some t =>
      rw [hdel] at h2
      exact ⟨t, rfl, of_decide_eq_true h2⟩
  · -- trace decomposition around P
    obtain ⟨l1, l2, hsplit⟩ := List.append_of_mem hP
    refine ⟨(postsLoop db l1).2,
      (postsLoop (deletePostCascade (postsLoop db l1).1 P).1 l2).2,
      (postsLoop db l1).1, ?_, deletePostCascade_trace _ P⟩
    simp only [permanentlyDeleteOldPosts, if_neg hne]
    rw [hsplit, postsLoop_trace_split]
  · -- per-comment order within a block
    intro d c
    exact deleteCommentCascade_trace d c
  · -- comments referencing P are gone
    intro c hc
    simp only [permanentlyDeleteOldPosts, if_neg hne] at hc
    exact beq_eq_false_iff_ne.mp (postsLoop_comments_clear _ db hP c hc)
  · -- votes on P are gone
    intro v hv
    simp only [permanentlyDeleteOldPosts, if_neg hne] at hv
    exact postsLoop_post_votes_clear _ db hP v hv
  · -- votes on P's former comments are gone
    intro c hc hcp v hv
    simp only [permanentlyDeleteOldPosts, if_neg hne] at hv
    have hJ : deadCommentVotesCleared db
        (postsLoop db (selectPostsToDelete now db)).1 :=
      deadCommentVotesCleared_postsLoop _ db (deadCommentVotesCleared_refl db)
    have hnc : c ∉ (postsLoop db (selectPostsToDelete now db)).1.comments := by
      intro hcmem
      have := postsLoop_comments_clear _ db hP c hcmem
      simp [hcp] at this
    exact hJ c hc hnc v hv
  · -- P itself is gone
    intro q hq
    simp only [permanentlyDeleteOldPosts, if_neg hne, postsLoop_posts] at hq
    exact (mem_deleteRows Post.id hq).2 P hP
  · -- exactly one audit entry, counting posts
    refine ⟨{ actionType := "post_deletion", targetType := "posts",
              targetCount := (selectPostsToDelete now db).length, agentId := none,
              retentionPolicyApplied := "30_day_soft_delete_retention",
              executedBy := "cron_job", executedAt := now, createdAt := now },
            ?_, rfl, ?_⟩
    · simp only [permanentlyDeleteOldPosts, if_neg hne, postsLoop_deletionAuditLog]
    · simp only [permanentlyDeleteOldPosts, if_neg hne]

/-! ## Access patterns of the cascade -/

/-- Is this event a full collection scan? -/
def Ev.isFull : Ev → Bool
  | .fullScan _ => true
  | _ => false

theorem deleteCommentCascade_no_fullscan (db : DB) (c : Comment) :
    ∀ e ∈ (deleteCommentCascade db c).2, e.isFull = false := by
  intro e he
  rw [deleteCommentCascade_trace] at he
  rcases List.mem_cons.mp he with rfl | he2
  · rfl
  · rcases List.mem_append.mp he2 with he3 | he3
    · obtain ⟨v, _, rfl⟩ := List.mem_map.mp he3
      rfl
    · rw [List.mem_singleton.mp he3]
      rfl

theorem commentsLoop_no_fullscan : ∀ (cs : List Comment) (db : DB),
    ∀ e ∈ (commentsLoop db cs).2, e.isFull = false := by
  intro cs
  induction cs with
  | nil => intro db e he; exact absurd he (List.not_mem_nil e)
  | cons c rest ih =>
    intro db e he
    rcases List.mem_append.mp he with he2 | he2
    · exact deleteCommentCascade_no_fullscan db c e he2
    · exact ih _ e he2

theorem deletePostCascade_no_fullscan (db : DB) (p : Post) :
    ∀ e ∈ (deletePostCascade db p).2, e.isFull = false := by
  intro e he
  rw [deletePostCascade_trace] at he
  simp only [List.mem_cons, List.mem_append, List.mem_map, List.mem_singleton] at he
  rcases he with ((rfl | hcl) | rfl | ⟨v, -, rfl⟩) | (rfl | hnil)
  · rfl
  · exact commentsLoop_no_fullscan _ db e hcl
  · rfl
  · rfl
  · rfl
  · exact absurd hnil (List.not_mem_nil e)

theorem postsLoop_no_fullscan : ∀ (ps : List Post) (db : DB),
    ∀ e ∈ (postsLoop db ps).2, e.isFull = false := by
  intro ps
  induction ps with
  | nil => intro db e he; exact absurd he (List.not_mem_nil e)
  | cons p rest ih =>
    intro db e he
    rcases List.mem_append.mp he with he2 | he2
    · exact deletePostCascade_no_fullscan db p e he2
    · exact ih _ e he2

theorem threadsLoop_no_fullscan (a : Nat) : ∀ (ts : List MessageThread) (db : DB),
    ∀ e ∈ (threadsLoop a db ts).2, e.isFull = false := by
  intro ts
  induction ts with
  | nil => intro db e he; exact absurd he (List.not_mem_nil e)
  | cons th rest ih =>
    intro db e he
    by_cases h : th.participantIds.contains a
    · simp only [threadsLoop, h, if_pos] at he
      rcases List.mem_cons.mp he with rfl | he2
      · rfl
      · rcases List.mem_append.mp he2 with he3 | he3
        · obtain ⟨m, _, rfl⟩ := List.mem_map.mp he3
          rfl
        · rcases List.mem_cons.mp he3 with rfl | he4
          · rfl
          · exact ih _ e he4
    · simp only [threadsLoop, h, Bool.false_eq_true, if_neg, not_false_iff] at he
      exact ih _ e he

/-- **C8 (counterexample)** — The agent cascade's thread step enumerates the
whole `messageThreads` collection: its access trace contains a full-scan
event even on an empty store, refuting "never by enumerating a full
collection". -/
theorem C8_counterexample_full_scan :
    Ev.fullScan "messageThreads" ∈ (deleteAgentData emptyDB 1).2 := by decide

/-- **C8 (amended)** — Every lookup the agent cascade performs is an indexed
lookup keyed by the parent id, except the message-thread step, which is the
only full collection scan in the walk. -/
theorem C8_indexed_lookups_except_threads (db : DB) (a : Nat) :
    ∀ e ∈ (deleteAgentData db a).2, e.isFull = true →
      e = Ev.fullScan "messageThreads" := by
  intro e he hfull
  simp only [deleteAgentData, stepSeq_snd, List.mem_append] at he
  have hstep : ∀ {tbl : String} {tr : List Ev},
      (∀ x ∈ tr, Ev.isFull x = false) → e ∈ Ev.indexedQuery tbl :: tr → False := by
    intro tbl tr htr hmem
    rcases List.mem_cons.mp hmem with rfl | h2
    · exact absurd hfull (by simp [Ev.isFull])
    · rw [htr e h2] at hfull
      exact absurd hfull (by simp)
  have hmapdel : ∀ {tbl : String} {α : Type} {f : α → Nat} {l : List α},
      e ∈ l.map (fun x => Ev.deleted tbl (f x)) → False := by
    intro tbl α f l hmem
    obtain ⟨x, _, hx⟩ := List.mem_map.mp hmem
    rw [← hx] at hfull
    exact absurd hfull (by simp [Ev.isFull])
  rcases he with he | he
  · -- posts step
    exact absurd he (fun h => hstep (postsLoop_no_fullscan _ db) h)
  rcases he with he | he
  · exact absurd he (fun h => hstep (commentsLoop_no_fullscan _ _) h)
  rcases he with he | he
  · rcases List.mem_cons.mp he with rfl | h2
    · exact absurd hfull (by simp [Ev.isFull])
    · exact absurd h2 (fun h => hmapdel h)
  rcases he with he | he
  · rcases List.mem_append.mp he with h1 | h1
    · rcases List.mem_cons.mp h1 with rfl | h2
      · exact absurd hfull (by simp [Ev.isFull])
      · exact absurd h2 (fun h => hmapdel h)
    · rcases List.mem_cons.mp h1 with rfl | h2
      · exact absurd hfull (by simp [Ev.isFull])
      · exact absurd h2 (fun h => hmapdel h)
  rcases he with he | he
  · rcases List.mem_append.mp he with h1 | h1
    · rcases List.mem_cons.mp h1 with rfl | h2
      · exact absurd hfull (by simp [Ev.isFull])
      · exact absurd h2 (fun h => hmapdel h)
    · rcases List.mem_cons.mp h1 with rfl | h2
      · exact absurd hfull (by simp [Ev.isFull])
      · exact absurd h2 (fun h => hmapdel h)
  rcases he with he | he
  · -- the thread step: the full scan itself, or the loop events
    rcases List.mem_cons.mp he with rfl | h2
    · rfl
    · rw [threadsLoop_no_fullscan a _ _ e h2] at hfull
      exact absurd hfull (by simp)
  rcases he with he | he
  · exact absurd he (fun h => hstep (fun x hx => by
      obtain ⟨n, _, hn⟩ := List.mem_map.mp hx; rw [← hn]; rfl) h)
  rcases he with he | he
  · exact absurd he (fun h => hstep (fun x hx => by
      obtain ⟨n, _, hn⟩ := List.mem_map.mp hx; rw [← hn]; rfl) h)
  rcases he with he | he
  · exact absurd he (fun h => hstep (fun x hx => by
      obtain ⟨n, _, hn⟩ := List.mem_map.mp hx; rw [← hn]; rfl) h)
  rcases he with he | he
  · exact absurd he (fun h => hstep (fun x hx => by
      obtain ⟨n, _, hn⟩ := List.mem_map.mp hx; rw [← hn]; rfl) h)
  · -- the agent row deletion
    rw [List.mem_singleton.mp he] at hfull
    exact absurd hfull (by simp [Ev.isFull])

/-- Witness for C8's amended statement at a concrete store: the theorem
applies to the full-scan event the trace provably contains. -/
theorem C8_indexed_lookups_witness :
    Ev.fullScan "messageThreads" ∈ (deleteAgentData emptyDB 1).2 ∧
    Ev.fullScan "messageThreads" = Ev.fullScan "messageThreads" :=
  ⟨by decide,
   C8_indexed_lookups_except_threads emptyDB 1 (Ev.fullScan "messageThreads")
     (by decide) (by rfl)⟩

/-! ## Batch bounds -/

theorem processOne_count_le (cascade : DB → Nat → Except DB DB) (now : Nat)
    (st : ProcState) (r : AccountDeletionRequest) :
    (processOne cascade now st r).processedCount ≤ st.processedCount + 1 := by
  simp only [processOne]
  split
  · simp
  · split
    · simp
    · simp

theorem processLoop_count_le (cascade : DB → Nat → Except DB DB) (now : Nat) :
    ∀ (sel : List AccountDeletionRequest) (st : ProcState),
      (processLoop cascade now st sel).processedCount ≤
        st.processedCount + sel.length := by
  intro sel
  induction sel with
  | nil => intro st; simp [processLoop]
  | cons r rest ih =>
    intro st
    have h1 := ih (processOne cascade now st r)
    have h2 := processOne_count_le cascade now st r
    simp only [processLoop]
    calc (processLoop cascade now (processOne cascade now st r) rest).processedCount
        ≤ (processOne cascade now st r).processedCount + rest.length := h1
      _ ≤ st.processedCount + 1 + rest.length := by omega
      _ = st.processedCount + (r :: rest).length := by simp [List.length_cons]; omega

/-- **C9** — Every batch job returns a count of at most `BATCH_SIZE` (= 100)
on every invocation: the three single-collection purges, the
soft-deleted-post purge, anonymization, export expiry, and the
account-deletion processor (for any cascade behaviour). -/
theorem C9_batch_size_bound (now : Nat) (db : DB)
    (cascade : DB → Nat → Except DB DB) :
    (cleanupOldMessages now db).2.deleted ≤ BATCH_SIZE ∧
    (cleanupOldNotifications now db).2.deleted ≤ BATCH_SIZE ∧
    (cleanupOldActivityLogs now db).2.deleted ≤ BATCH_SIZE ∧
    (permanentlyDeleteOldPosts now db).2.2.deleted ≤ BATCH_SIZE ∧
    (anonymizeInactiveAgents now db).2.anonymized ≤ BATCH_SIZE ∧
    (cleanupExpiredExports now db).2.deleted ≤ BATCH_SIZE ∧
    (processPendingDeletions cascade now db).2.processed ≤ BATCH_SIZE := by
  refine ⟨?_, ?_, ?_, ?_, ?_, ?_, ?_⟩
  · by_cases h : (selectOldMessages now db).length = 0
    · simp [cleanupOldMessages, h]
    · simp only [cleanupOldMessages, if_neg h]
      exact List.length_take_le _ _
  · by_cases h : (selectOldNotifications now db).length = 0
    · simp [cleanupOldNotifications, h]
    · simp only [cleanupOldNotifications, if_neg h]
      exact List.length_take_le _ _
  · by_cases h : (selectOldActivityLogs now db).length = 0
    · simp [cleanupOldActivityLogs, h]
    · simp only [cleanupOldActivityLogs, if_neg h]
      exact List.length_take_le _ _
  · by_cases h : (selectPostsToDelete now db).length = 0
    · simp [permanentlyDeleteOldPosts, h]
    · simp only [permanentlyDeleteOldPosts, if_neg h]
      exact List.length_take_le _ _
  · by_cases h : (selectInactiveAgents now db).length = 0
    · simp [anonymizeInactiveAgents, h]
    · simp only [anonymizeInactiveAgents, if_neg h]
      exact List.length_take_le _ _
  · by_cases h : (selectExpiredExports now db).length = 0
    · simp [cleanupExpiredExports, h]
    · simp only [cleanupExpiredExports, if_neg h]
      exact List.length_take_le _ _
  · by_cases h : (selectPendingDeletions now db).length = 0
    · simp [processPendingDeletions, h]
    · simp only [processPendingDeletions, if_neg h]
      have h1 := processLoop_count_le cascade now (selectPendingDeletions now db)
        { db := db, processedCount := 0, cascadeCalls := [] }
      have h2 : (selectPendingDeletions now db).length ≤ BATCH_SIZE :=
        List.length_take_le _ _
      simpa using le_trans h1 (by simpa using h2)

/-! ## Anonymization: structure of the patch fold -/

/-- The field values `anonPatch` leaves on a row with id `rid`. -/
def AnonymizedFields (now rid : Nat) (x : Agent) : Prop :=
  x.name = "[Deleted Agent " ++ sliceLast (toString rid) 6 ++ "]" ∧
  x.handle = "deleted_" ++ sliceLast (toString rid) 8 ∧
  x.entityName = "[Deleted]" ∧ x.bio = none ∧ x.avatarUrl = none ∧
  x.email = none ∧ x.emailVerified = none ∧ x.emailVerificationCode = none ∧
  x.emailVerificationExpiresAt = none ∧ x.webhookUrl = none ∧
  x.anonymizedAt = some now ∧ x.apiKey = "ANONYMIZED_" ++ toString now ∧
  x.apiKeyPfx = "ANON_XXX"

theorem anonPatch_fields (now : Nat) (x : Agent) {rid : Nat} (h : x.id = rid) :
    AnonymizedFields now rid (anonPatch now x) := by
  subst h
  exact ⟨rfl, rfl, rfl, rfl, rfl, rfl, rfl, rfl, rfl, rfl, rfl, rfl, rfl⟩

/-- Every row coming out of the anonymization fold is either freshly
anonymized or untouched because no selected row shares its id. -/
theorem anonFold_mem (now : Nat) : ∀ (sel : List Agent) (l : List Agent)
    {x : Agent},
    x ∈ sel.foldl (fun l a => l.map (fun x => if x.id == a.id then anonPatch now x else x)) l →
      x.anonymizedAt = some now ∨ (x ∈ l ∧ ∀ b ∈ sel, x.id ≠ b.id) := by
  intro sel
  induction sel with
  | nil =>
    intro l x hx
    exact Or.inr ⟨hx, by simp⟩
  | cons a rest ih =>
    intro l x hx
    rcases ih _ hx with h | ⟨hmem, hall⟩
    · exact Or.inl h
    · obtain ⟨y, hy, hgy⟩ := List.mem_map.mp hmem
      by_cases hid : y.id == a.id
      · rw [if_pos hid] at hgy
        subst hgy
        exact Or.inl rfl
      · rw [if_neg hid] at hgy
        subst hgy
        refine Or.inr ⟨hy, ?_⟩
        intro b hb
        rcases List.mem_cons.mp hb with rfl | hb2
        · simpa using hid
        · exact hall b hb2

/-- A row already carrying the anonymized fields keeps them through the
rest of the fold. -/
theorem anonFold_persist (now : Nat) : ∀ (sel : List Agent) (l : List Agent)
    {rid : Nat},
    (∃ x ∈ l, x.id = rid ∧ AnonymizedFields now rid x) →
    ∃ x ∈ sel.foldl (fun l a => l.map (fun x => if x.id == a.id then anonPatch now x else x)) l,
      x.id = rid ∧ AnonymizedFields now rid x := by
  intro sel
  induction sel with
  | nil => intro l rid h; exact h
  | cons a rest ih =>
    intro l rid ⟨x, hx, hid, hAF⟩
    apply ih
    refine ⟨if x.id == a.id then anonPatch now x else x,
      List.mem_map.mpr ⟨x, hx, rfl⟩, ?_⟩
    by_cases hc : x.id == a.id
    · rw [if_pos hc]
      exact ⟨hid, anonPatch_fields now x hid⟩
    · rw [if_neg hc]
      exact ⟨hid, hAF⟩

/-- Every selected row's id ends up carried by an anonymized row. -/
theorem anonFold_establish (now : Nat) : ∀ (sel : List Agent) (l : List Agent)
    {b : Agent}, b ∈ sel → (∃ x ∈ l, x.id = b.id) →
    ∃ x ∈ sel.foldl (fun l a => l.map (fun x => if x.id == a.id then anonPatch now x else x)) l,
      x.id = b.id ∧ AnonymizedFields now b.id x := by
  intro sel
  induction sel with
  | nil => intro l b hb; exact absurd hb (List.not_mem_nil b)
  | cons a rest ih =>
    intro l b hb ⟨x, hx, hid⟩
    simp only [List.foldl_cons]
    rcases List.mem_cons.mp hb with rfl | hb2
    · apply anonFold_persist
      have hmm : anonPatch now x ∈
          l.map (fun z => if z.id == b.id then anonPatch now z else z) := by
        apply List.mem_map.mpr
        refine ⟨x, hx, ?_⟩
        rw [hid]
        simp
      exact ⟨anonPatch now x, hmm, hid, anonPatch_fields now x hid⟩
    · apply ih _ hb2
      refine ⟨if x.id == a.id then anonPatch now x else x,
        List.mem_map.mpr ⟨x, hx, rfl⟩, ?_⟩
      by_cases hc : x.id == a.id
      · rw [if_pos hc]; exact hid
      · rw [if_neg hc]; exact hid

/-- `authenticateAgent` only ever returns a live, non-anonymized member of
the agents table. -/
theorem head?_eq_some_mem {α : Type} {l : List α} {x : α}
    (h : l.head? = some x) : x ∈ l := by
  cases l with
  | nil => cases h
  | cons a as =>
    cases h
    exact List.mem_cons_self _ _

theorem authenticateAgent_sound (hash : String → String) (db : DB) (k : String)
    {y : Agent} (h : authenticateAgent hash db k = some y) :
    y ∈ db.agents ∧ y.anonymizedAt = none := by
  unfold authenticateAgent at h
  by_cases hk : k = ""
  · rw [if_pos hk] at h; cases h
  · rw [if_neg hk] at h
    split at h
    · cases h
    · rename_i agent hhead
      split at h
      · cases h
      · split at h
        · cases h
        · rename_i hkey hdead
          cases h
          have hmem : y ∈ db.agents.filter (fun a => a.apiKeyPfx == k.take 11) :=
            head?_eq_some_mem hhead
          refine ⟨(List.mem_filter.mp hmem).1, ?_⟩
          simp only [Bool.or_eq_true, not_or] at hdead
          cases ha : y.anonymizedAt with
          | none => rfl
          | some t =>
            rw [ha] at hdead
            simp at hdead

/-- Characters a hex digest can contain. -/
def hexChars : List Char := "0123456789abcdef".data

/-- **C7** — Each agent selected by `anonymizeInactiveAgents` (inactive over
two years, not yet anonymized) keeps a surviving row whose PII fields are
deterministic placeholders derived from the row's own id suffix, whose
credential is the timestamped sentinel, and whose `anonymizedAt` is set; no
API key can authenticate as that agent afterwards, and no hex-output hash of
any incoming key can equal the sentinel. -/
theorem C7_anonymization_irreversibility (now : Nat) (db : DB) (a : Agent)
    (ha : a ∈ selectInactiveAgents now db) :
    (∃ x ∈ (anonymizeInactiveAgents now db).1.agents,
      x.id = a.id ∧ AnonymizedFields now a.id x) ∧
    (∀ (hash : String → String) (k : String) (y : Agent),
      authenticateAgent hash (anonymizeInactiveAgents now db).1 k = some y →
        y.id ≠ a.id) ∧
    (∀ hash : String → String, (∀ s, ∀ ch ∈ (hash s).data, ch ∈ hexChars) →
      ∀ k, hash k ≠ "ANONYMIZED_" ++ toString now) := by
  have hne : ¬ ((selectInactiveAgents now db).length = 0) := by
    intro h0
    rw [List.length_eq_zero] at h0
    rw [h0] at ha
    exact absurd ha (List.not_mem_nil a)
  have hagents : (anonymizeInactiveAgents now db).1.agents =
      (selectInactiveAgents now db).foldl
        (fun l a => l.map (fun x => if x.id == a.id then anonPatch now x else x))
        db.agents := by
    simp only [anonymizeInactiveAgents, if_neg hne]
  refine ⟨?_, ?_, ?_⟩
  · rw [hagents]
    apply anonFold_establish now _ _ ha
    exact ⟨a, (List.mem_filter.mp (List.mem_of_mem_take ha)).1, rfl⟩
  · intro hash k y hy hid
    obtain ⟨hymem, hynone⟩ := authenticateAgent_sound hash _ k hy
    rw [hagents] at hymem
    rcases anonFold_mem now _ _ hymem with h | ⟨hmem, hall⟩
    · rw [h] at hynone; cases hynone
    · exact hall a ha hid
  · intro hash hhex k heq
    have hA : ('A' : Char) ∈ (hash k).data := by
      rw [heq, String.data_append]
      exact List.mem_append.mpr (Or.inl (by decide))
    have := hhex k 'A' hA
    exact absurd this (by decide)

/-! ## Audit-entry semantics of the batch jobs -/

/-- **C6 (amended)** — For the message, notification, activity-log,
soft-deleted-post, and anonymization jobs: a run with zero qualifying rows
returns count 0 and writes no `deletionAuditLog` entry, and a run that
touches at least one row appends exactly one entry.  The export-expiry job
never writes an audit entry, even when it marks rows expired — so for it a
no-op run is not distinguishable from a real action by audit-log absence. -/
theorem C6_audit_entry_semantics (now : Nat) (db : DB) :
    (selectOldMessages now db = [] →
      (cleanupOldMessages now db).2.deleted = 0 ∧
      (cleanupOldMessages now db).1.deletionAuditLog = db.deletionAuditLog) ∧
    (selectOldMessages now db ≠ [] →
      ∃ e, (cleanupOldMessages now db).1.deletionAuditLog =
        db.deletionAuditLog ++ [e]) ∧
    (selectOldNotifications now db = [] →
      (cleanupOldNotifications now db).2.deleted = 0 ∧
      (cleanupOldNotifications now db).1.deletionAuditLog = db.deletionAuditLog) ∧
    (selectOldNotifications now db ≠ [] →
      ∃ e, (cleanupOldNotifications now db).1.deletionAuditLog =
        db.deletionAuditLog ++ [e]) ∧
    (selectOldActivityLogs now db = [] →
      (cleanupOldActivityLogs now db).2.deleted = 0 ∧
      (cleanupOldActivityLogs now db).1.deletionAuditLog = db.deletionAuditLog) ∧
    (selectOldActivityLogs now db ≠ [] →
      ∃ e, (cleanupOldActivityLogs now db).1.deletionAuditLog =
        db.deletionAuditLog ++ [e]) ∧
    (selectPostsToDelete now db = [] →
      (permanentlyDeleteOldPosts now db).2.2.deleted = 0 ∧
      (permanentlyDeleteOldPosts now db).1.deletionAuditLog = db.deletionAuditLog) ∧
    (selectPostsToDelete now db ≠ [] →
      ∃ e, (permanentlyDeleteOldPosts now db).1.deletionAuditLog =
        db.deletionAuditLog ++ [e]) ∧
    (selectInactiveAgents now db = [] →
      (anonymizeInactiveAgents now db).2.anonymized = 0 ∧
      (anonymizeInactiveAgents now db).1.deletionAuditLog = db.deletionAuditLog) ∧
    (selectInactiveAgents now db ≠ [] →
      ∃ e, (anonymizeInactiveAgents now db).1.deletionAuditLog =
        db.deletionAuditLog ++ [e]) ∧
    (cleanupExpiredExports now db).1.deletionAuditLog = db.deletionAuditLog := by
  refine ⟨?_, ?_, ?_, ?_, ?_, ?_, ?_, ?_, ?_, ?_, ?_⟩
  · intro h
    have h0 : (selectOldMessages now db).length = 0 := by rw [h]; rfl
    constructor <;> simp [cleanupOldMessages, h0]
  · intro h
    have h0 : ¬ ((selectOldMessages now db).length = 0) := by
      intro hl; exact h (List.length_eq_zero.mp hl)
    exact ⟨_, by simp only [cleanupOldMessages, if_neg h0]; rfl⟩
  · intro h
    have h0 : (selectOldNotifications now db).length = 0 := by rw [h]; rfl
    constructor <;> simp [cleanupOldNotifications, h0]
  · intro h
    have h0 : ¬ ((selectOldNotifications now db).length = 0) := by
      intro hl; exact h (List.length_eq_zero.mp hl)
    exact ⟨_, by simp only [cleanupOldNotifications, if_neg h0]; rfl⟩
  · intro h
    have h0 : (selectOldActivityLogs now db).length = 0 := by rw [h]; rfl
    constructor <;> simp [cleanupOldActivityLogs, h0]
  · intro h
    have h0 : ¬ ((selectOldActivityLogs now db).length = 0) := by
      intro hl; exact h (List.length_eq_zero.mp hl)
    exact ⟨_, by simp only [cleanupOldActivityLogs, if_neg h0]; rfl⟩
  · intro h
    have h0 : (selectPostsToDelete now db).length = 0 := by rw [h]; rfl
    constructor <;> simp [permanentlyDeleteOldPosts, h0]
  · intro h
    have h0 : ¬ ((selectPostsToDelete now db).length = 0) := by
      intro hl; exact h (List.length_eq_zero.mp hl)
    exact ⟨_, by
      simp only [permanentlyDeleteOldPosts, if_neg h0, postsLoop_deletionAuditLog]; rfl⟩
  · intro h
    have h0 : (selectInactiveAgents now db).length = 0 := by rw [h]; rfl
    constructor <;> simp [anonymizeInactiveAgents, h0]
  · intro h
    have h0 : ¬ ((selectInactiveAgents now db).length = 0) := by
      intro hl; exact h (List.length_eq_zero.mp hl)
    exact ⟨_, by simp only [anonymizeInactiveAgents, if_neg h0]; rfl⟩
  · by_cases h0 : (selectExpiredExports now db).length = 0
    · simp [cleanupExpiredExports, h0]
    · simp only [cleanupExpiredExports, if_neg h0]

/-- A store with one data-export request whose `expiresAt` is in the past. -/
def dbExpiredExport : DB :=
  { emptyDB with dataExportRequests :=
      [{ id := 1, agentId := 1, status := "completed",
         expiresAt := some 0, exportData := some "payload" }] }

/-- **C6 (counterexample)** — The export-expiry job reports one row acted on
yet appends no audit entry, refuting "every batch cleanup job … appends
exactly one deletionAuditLog entry" as stated. -/
theorem C6_counterexample_exports_no_audit :
    (cleanupExpiredExports 1 dbExpiredExport).2.deleted = 1 ∧
    (cleanupExpiredExports 1 dbExpiredExport).1.deletionAuditLog =
      dbExpiredExport.deletionAuditLog := by decide

/-- A store with one message old enough to qualify for the 90-day purge at
time `90*DAYS + 1`. -/
def dbOneOldMessage : DB :=
  { emptyDB with messages := [{ id := 1, threadId := 1, createdAt := 0 }] }

/-- Witness for C6 at concrete stores: the zero-branch on the empty store and
the one-audit-entry branch on a store with one old message. -/
theorem C6_audit_entry_witness :
    ((cleanupOldMessages (90 * DAYS + 1) emptyDB).2.deleted = 0 ∧
      (cleanupOldMessages (90 * DAYS + 1) emptyDB).1.deletionAuditLog =
        emptyDB.deletionAuditLog) ∧
    (∃ e, (cleanupOldMessages (90 * DAYS + 1) dbOneOldMessage).1.deletionAuditLog =
      dbOneOldMessage.deletionAuditLog ++ [e]) :=
  ⟨(C6_audit_entry_semantics (90 * DAYS + 1) emptyDB).1 (by decide),
   (C6_audit_entry_semantics (90 * DAYS + 1) dbOneOldMessage).2.1 (by decide)⟩

/-! ## Idempotence of the cleanup jobs -/

/-- A store with 101 messages all old enough for the 90-day purge. -/
def dbManyOldMessages : DB :=
  { emptyDB with messages :=
      (List.range 101).map (fun i => { id := i, threadId := 0, createdAt := 0 }) }

/-- **C5 (counterexample)** — Two ways the claim fails as stated: the
export-expiry job re-selects the same still-expired row and returns 1 again
on the second call, and a backlog above `BATCH_SIZE` leaves qualifying rows
for the second message-purge call even though no row newly qualified. -/
theorem C5_counterexample_second_run_nonzero :
    (cleanupExpiredExports 1 (cleanupExpiredExports 1 dbExpiredExport).1).2.deleted = 1 ∧
    (cleanupOldMessages (90 * DAYS + 1)
      (cleanupOldMessages (90 * DAYS + 1) dbManyOldMessages).1).2.deleted = 1 := by
  constructor
  · decide
  · decide

/-- **C5 (amended)** — For the deleting jobs (messages, notifications,
activity logs, soft-deleted posts) and anonymization: when at most
`BATCH_SIZE` rows qualify at the first call and no rows newly enter the
qualifying predicate between the calls (same `now`), the second call's count
is 0.  (Export expiry is excluded: its second call re-counts the rows it
already marked, as the counterexample shows.) -/
theorem C5_cleanup_idempotence (now : Nat) (db : DB) :
    ((db.messages.filter
        (fun m => decide (m.createdAt < now - RETENTION_PERIODS.messages))).length ≤
          BATCH_SIZE →
      (cleanupOldMessages now (cleanupOldMessages now db).1).2.deleted = 0) ∧
    ((db.notifications.filter
        (fun n => decide (n.createdAt < now - RETENTION_PERIODS.notifications))).length ≤
          BATCH_SIZE →
      (cleanupOldNotifications now (cleanupOldNotifications now db).1).2.deleted = 0) ∧
    ((db.activityLog.filter
        (fun e => decide (e.createdAt < now - RETENTION_PERIODS.activityLogs))).length ≤
          BATCH_SIZE →
      (cleanupOldActivityLogs now (cleanupOldActivityLogs now db).1).2.deleted = 0) ∧
    ((db.posts.filter
        (fun p => match p.deletedAt with
          | some t => decide (t < now - RETENTION_PERIODS.softDeletedPosts)
          | none => false)).length ≤ BATCH_SIZE →
      (permanentlyDeleteOldPosts now
        (permanentlyDeleteOldPosts now db).1).2.2.deleted = 0) ∧
    ((db.agents.filter
        (fun a => decide (a.lastActiveAt < now - RETENTION_PERIODS.inactiveAgents)
          && a.anonymizedAt.isNone)).length ≤ BATCH_SIZE →
      (anonymizeInactiveAgents now
        (anonymizeInactiveAgents now db).1).2.anonymized = 0) := by
  refine ⟨?_, ?_, ?_, ?_, ?_⟩
  · intro h
    have hsel : selectOldMessages now db = db.messages.filter
        (fun m => decide (m.createdAt < now - RETENTION_PERIODS.messages)) :=
      List.take_of_length_le h
    by_cases h0 : (selectOldMessages now db).length = 0
    · have hfix : (cleanupOldMessages now db).1 = db := by
        simp [cleanupOldMessages, h0]
      rw [hfix]
      simp [cleanupOldMessages, h0]
    · have hmsgs : (cleanupOldMessages now db).1.messages =
          deleteRows Message.id (selectOldMessages now db) db.messages := by
        simp only [cleanupOldMessages, if_neg h0]
      have hq2 : (selectOldMessages now (cleanupOldMessages now db).1).length = 0 := by
        have hfil : (cleanupOldMessages now db).1.messages.filter
            (fun m => decide (m.createdAt < now - RETENTION_PERIODS.messages)) = [] := by
          apply List.filter_eq_nil_iff.mpr
          intro x hx
          rw [hmsgs, hsel] at hx
          have := deleteRows_self_clear Message.id
            (fun m => decide (m.createdAt < now - RETENTION_PERIODS.messages)) hx
          simp only [this]
          exact Bool.false_ne_true
        simp only [selectOldMessages]
        rw [hfil]
        rfl
      revert hq2
      generalize (cleanupOldMessages now db).1 = db1
      intro hq2
      simp [cleanupOldMessages, hq2]
  · intro h
    have hsel : selectOldNotifications now db = db.notifications.filter
        (fun n => decide (n.createdAt < now - RETENTION_PERIODS.notifications)) :=
      List.take_of_length_le h
    by_cases h0 : (selectOldNotifications now db).length = 0
    · have hfix : (cleanupOldNotifications now db).1 = db := by
        simp [cleanupOldNotifications, h0]
      rw [hfix]
      simp [cleanupOldNotifications, h0]
    · have hrows : (cleanupOldNotifications now db).1.notifications =
          deleteRows Notification.id (selectOldNotifications now db)
            db.notifications := by
        simp only [cleanupOldNotifications, if_neg h0]
      have hq2 : (selectOldNotifications now
          (cleanupOldNotifications now db).1).length = 0 := by
        have hfil : (cleanupOldNotifications now db).1.notifications.filter
            (fun n => decide (n.createdAt < now - RETENTION_PERIODS.notifications)) = [] := by
          apply List.filter_eq_nil_iff.mpr
          intro x hx
          rw [hrows, hsel] at hx
          have := deleteRows_self_clear Notification.id
            (fun n => decide (n.createdAt < now - RETENTION_PERIODS.notifications)) hx
          simp only [this]
          exact Bool.false_ne_true
        simp only [selectOldNotifications]
        rw [hfil]
        rfl
      revert hq2
      generalize (cleanupOldNotifications now db).1 = db1
      intro hq2
      simp [cleanupOldNotifications, hq2]
  · intro h
    have hsel : selectOldActivityLogs now db = db.activityLog.filter
        (fun e => decide (e.createdAt < now - RETENTION_PERIODS.activityLogs)) :=
      List.take_of_length_le h
    by_cases h0 : (selectOldActivityLogs now db).length = 0
    · have hfix : (cleanupOldActivityLogs now db).1 = db := by
        simp [cleanupOldActivityLogs, h0]
      rw [hfix]
      simp [cleanupOldActivityLogs, h0]
    · have hrows : (cleanupOldActivityLogs now db).1.activityLog =
          deleteRows ActivityLogEntry.id (selectOldActivityLogs now db)
            db.activityLog := by
        simp only [cleanupOldActivityLogs, if_neg h0]
      have hq2 : (selectOldActivityLogs now
          (cleanupOldActivityLogs now db).1).length = 0 := by
        have hfil : (cleanupOldActivityLogs now db).1.activityLog.filter
            (fun e => decide (e.createdAt < now - RETENTION_PERIODS.activityLogs)) = [] := by
          apply List.filter_eq_nil_iff.mpr
          intro x hx
          rw [hrows, hsel] at hx
          have := deleteRows_self_clear ActivityLogEntry.id
            (fun e => decide (e.createdAt < now - RETENTION_PERIODS.activityLogs)) hx
          simp only [this]
          exact Bool.false_ne_true
        simp only [selectOldActivityLogs]
        rw [hfil]
        rfl
      revert hq2
      generalize (cleanupOldActivityLogs now db).1 = db1
      intro hq2
      simp [cleanupOldActivityLogs, hq2]
  · intro h
    have hsel : selectPostsToDelete now db = db.posts.filter
        (fun p => match p.deletedAt with
          | some t => decide (t < now - RETENTION_PERIODS.softDeletedPosts)
          | none => false) :=
      List.take_of_length_le h
    by_cases h0 : (selectPostsToDelete now db).length = 0
    · have hfix : (permanentlyDeleteOldPosts now db).1 = db := by
        simp [permanentlyDeleteOldPosts, h0]
      rw [hfix]
      simp [permanentlyDeleteOldPosts, h0]
    · have hrows : (permanentlyDeleteOldPosts now db).1.posts =
          deleteRows Post.id (selectPostsToDelete now db) db.posts := by
        simp only [permanentlyDeleteOldPosts, if_neg h0, postsLoop_posts]
      have hq2 : (selectPostsToDelete now
          (permanentlyDeleteOldPosts now db).1).length = 0 := by
        have hfil : (permanentlyDeleteOldPosts now db).1.posts.filter
            (fun p => match p.deletedAt with
              | some t => decide (t < now - RETENTION_PERIODS.softDeletedPosts)
              | none => false) = [] := by
          apply List.filter_eq_nil_iff.mpr
          intro x hx
          rw [hrows, hsel] at hx
          have := deleteRows_self_clear Post.id
            (fun p => match p.deletedAt with
              | some t => decide (t < now - RETENTION_PERIODS.softDeletedPosts)
              | none => false) hx
          simp only [this]
          exact Bool.false_ne_true
        simp only [selectPostsToDelete]
        rw [hfil]
        rfl
      revert hq2
      generalize (permanentlyDeleteOldPosts now db).1 = db1
      intro hq2
      simp [permanentlyDeleteOldPosts, hq2]
  · intro h
    have hsel : selectInactiveAgents now db = db.agents.filter
        (fun a => decide (a.lastActiveAt < now - RETENTION_PERIODS.inactiveAgents)
          && a.anonymizedAt.isNone) :=
      List.take_of_length_le h
    by_cases h0 : (selectInactiveAgents now db).length = 0
    · have hfix : (anonymizeInactiveAgents now db).1 = db := by
        simp [anonymizeInactiveAgents, h0]
      rw [hfix]
      simp [anonymizeInactiveAgents, h0]
    · have hrows : (anonymizeInactiveAgents now db).1.agents =
          (selectInactiveAgents now db).foldl
            (fun l a => l.map (fun x => if x.id == a.id then anonPatch now x else x))
            db.agents := by
        simp only [anonymizeInactiveAgents, if_neg h0]
      have hq2 : (selectInactiveAgents now
          (anonymizeInactiveAgents now db).1).length = 0 := by
        have hfil : (anonymizeInactiveAgents now db).1.agents.filter
            (fun a => decide (a.lastActiveAt < now - RETENTION_PERIODS.inactiveAgents)
              && a.anonymizedAt.isNone) = [] := by
          apply List.filter_eq_nil_iff.mpr
          intro x hx
          rw [hrows] at hx
          rcases anonFold_mem now _ _ hx with hanon | ⟨hmem, hall⟩
          · simp [hanon]
          · intro hpred
            have hx2 : x ∈ selectInactiveAgents now db := by
              rw [hsel]
              exact List.mem_filter.mpr ⟨hmem, hpred⟩
            exact hall x hx2 rfl
        simp only [selectInactiveAgents]
        rw [hfil]
        rfl
      revert hq2
      generalize (anonymizeInactiveAgents now db).1 = db1
      intro hq2
      simp [anonymizeInactiveAgents, hq2]

/-- Witness for C5's amended statement: on the empty store every first-call
backlog is 0, so every second call returns 0. -/
theorem C5_cleanup_idempotence_witness :
    (cleanupOldMessages 0 (cleanupOldMessages 0 emptyDB).1).2.deleted = 0 ∧
    (cleanupOldNotifications 0 (cleanupOldNotifications 0 emptyDB).1).2.deleted = 0 ∧
    (cleanupOldActivityLogs 0 (cleanupOldActivityLogs 0 emptyDB).1).2.deleted = 0 ∧
    (permanentlyDeleteOldPosts 0
      (permanentlyDeleteOldPosts 0 emptyDB).1).2.2.deleted = 0 ∧
    (anonymizeInactiveAgents 0
      (anonymizeInactiveAgents 0 emptyDB).1).2.anonymized = 0 :=
  ⟨(C5_cleanup_idempotence 0 emptyDB).1 (by decide),
   (C5_cleanup_idempotence 0 emptyDB).2.1 (by decide),
   (C5_cleanup_idempotence 0 emptyDB).2.2.1 (by decide),
   (C5_cleanup_idempotence 0 emptyDB).2.2.2.1 (by decide),
   (C5_cleanup_idempotence 0 emptyDB).2.2.2.2 (by decide)⟩

/-! ## State-machine toolkit: frames and patches -/

/-- The agent cascade never touches the deletion-request table. -/
theorem deleteAgentData_accountDeletionRequests (db : DB) (a : Nat) :
    (deleteAgentData db a).1.accountDeletionRequests = db.accountDeletionRequests := by
  simp only [deleteAgentData, stepSeq_fst]
  rw [agentRowStep_accountDeletionRequests, agentExportsStep_accountDeletionRequests,
    agentInviteCodesStep_accountDeletionRequests, agentActivityStep_accountDeletionRequests,
    agentNotificationsStep_accountDeletionRequests, agentThreadsStep_accountDeletionRequests,
    agentEndorsementsStep_accountDeletionRequests, agentConnectionsStep_accountDeletionRequests,
    agentVotesStep_accountDeletionRequests, agentCommentsStep_accountDeletionRequests,
    agentPostsStep_accountDeletionRequests]

/-- The agent cascade never touches the cookie-consent table. -/
theorem deleteAgentData_cookieConsent (db : DB) (a : Nat) :
    (deleteAgentData db a).1.cookieConsent = db.cookieConsent := by
  simp only [deleteAgentData, stepSeq_fst]
  rw [agentRowStep_cookieConsent, agentExportsStep_cookieConsent,
    agentInviteCodesStep_cookieConsent, agentActivityStep_cookieConsent,
    agentNotificationsStep_cookieConsent, agentThreadsStep_cookieConsent,
    agentEndorsementsStep_cookieConsent, agentConnectionsStep_cookieConsent,
    agentVotesStep_cookieConsent, agentCommentsStep_cookieConsent,
    agentPostsStep_cookieConsent]

/-- The agent cascade's entire effect on the agents table. -/
theorem deleteAgentData_agents (db : DB) (a : Nat) :
    (deleteAgentData db a).1.agents = removeById Agent.id a db.agents := by
  simp only [deleteAgentData, stepSeq_fst]
  rw [agentRowStep_agents, agentExportsStep_agents, agentInviteCodesStep_agents,
    agentActivityStep_agents, agentNotificationsStep_agents, agentThreadsStep_agents,
    agentEndorsementsStep_agents, agentConnectionsStep_agents, agentVotesStep_agents,
    agentCommentsStep_agents, agentPostsStep_agents]

/-- Frame condition on a cascade: it leaves the deletion-request and
cookie-consent tables alone, whether it completes or throws. -/
def reqCascadeFrame (cascade : DB → Nat → Except DB DB) : Prop :=
  (∀ d x d2, cascade d x = .ok d2 →
    d2.accountDeletionRequests = d.accountDeletionRequests ∧
    d2.cookieConsent = d.cookieConsent) ∧
  (∀ d x dE, cascade d x = .error dE →
    dE.accountDeletionRequests = d.accountDeletionRequests ∧
    dE.cookieConsent = d.cookieConsent)

theorem agentCascade_frame : reqCascadeFrame agentCascade := by
  constructor
  · intro d x d2 h
    cases h
    exact ⟨deleteAgentData_accountDeletionRequests d x, deleteAgentData_cookieConsent d x⟩
  · intro d x dE h
    cases h

theorem setRequestStatus_cookie (db : DB) (rid : Nat) (s : String) :
    (setRequestStatus db rid s).cookieConsent = db.cookieConsent := rfl

theorem completeRequest_cookie (db : DB) (rid now : Nat) :
    (completeRequest db rid now).cookieConsent = db.cookieConsent := rfl

theorem setRequestStatus_filter_ne (db : DB) (rid : Nat) (s : String) (k : Nat)
    (hk : rid ≠ k) :
    (setRequestStatus db rid s).accountDeletionRequests.filter (fun q => q.id == k) =
      db.accountDeletionRequests.filter (fun q => q.id == k) := by
  apply filter_map_id
  · intro x
    by_cases hx : x.id == rid
    · rw [if_pos hx]
    · rw [if_neg hx]
  · intro x hx
    rw [if_neg]
    intro hcon
    exact hk (beq_iff_eq.mp hcon ▸ beq_iff_eq.mp hx)

theorem completeRequest_filter_ne (db : DB) (rid now : Nat) (k : Nat)
    (hk : rid ≠ k) :
    (completeRequest db rid now).accountDeletionRequests.filter (fun q => q.id == k) =
      db.accountDeletionRequests.filter (fun q => q.id == k) := by
  apply filter_map_id
  · intro x
    by_cases hx : x.id == rid
    · rw [if_pos hx]
    · rw [if_neg hx]
  · intro x hx
    rw [if_neg]
    intro hcon
    exact hk (beq_iff_eq.mp hcon ▸ beq_iff_eq.mp hx)

theorem setRequestStatus_filter_self (db : DB) (rid : Nat) (s : String) :
    (setRequestStatus db rid s).accountDeletionRequests.filter (fun q => q.id == rid) =
      (db.accountDeletionRequests.filter (fun q => q.id == rid)).map
        (fun q => { q with status := s }) := by
  simp only [setRequestStatus]
  rw [filter_map_comm]
  · apply List.map_congr_left
    intro x hx
    rw [if_pos (List.mem_filter.mp hx).2]
  · intro x
    by_cases hx : x.id == rid
    · rw [if_pos hx]
    · rw [if_neg hx]

theorem completeRequest_filter_self (db : DB) (rid now : Nat) :
    (completeRequest db rid now).accountDeletionRequests.filter (fun q => q.id == rid) =
      (db.accountDeletionRequests.filter (fun q => q.id == rid)).map
        (fun q => { q with status := "completed", processedAt := some now }) := by
  simp only [completeRequest]
  rw [filter_map_comm]
  · apply List.map_congr_left
    intro x hx
    rw [if_pos (List.mem_filter.mp hx).2]
  · intro x
    by_cases hx : x.id == rid
    · rw [if_pos hx]
    · rw [if_neg hx]

/-! ## Behaviour of the processing loop -/

theorem processOne_cookie (cascade : DB → Nat → Except DB DB)
    (H : reqCascadeFrame cascade) (now : Nat) (st : ProcState)
    (r : AccountDeletionRequest) :
    (processOne cascade now st r).db.cookieConsent = st.db.cookieConsent := by
  simp only [processOne]
  split
  · rfl
  · split
    · rename_i db2 hok
      show (completeRequest db2 r.id now).cookieConsent = st.db.cookieConsent
      rw [completeRequest_cookie]
      exact (H.1 _ _ _ hok).2
    · rename_i dbE herr
      show (setRequestStatus dbE r.id "pending").cookieConsent = st.db.cookieConsent
      rw [setRequestStatus_cookie]
      exact (H.2 _ _ _ herr).2

theorem processOne_filter_ne (cascade : DB → Nat → Except DB DB)
    (H : reqCascadeFrame cascade) (now : Nat) (st : ProcState)
    (r : AccountDeletionRequest) (k : Nat) (hk : r.id ≠ k) :
    (processOne cascade now st r).db.accountDeletionRequests.filter (fun q => q.id == k) =
      st.db.accountDeletionRequests.filter (fun q => q.id == k) := by
  simp only [processOne]
  split
  · show ((completeRequest (setRequestStatus st.db r.id "processing") r.id
        now).accountDeletionRequests.filter _) = _
    rw [completeRequest_filter_ne _ _ _ _ hk, setRequestStatus_filter_ne _ _ _ _ hk]
  · split
    · rename_i db2 hok
      show ((completeRequest db2 r.id now).accountDeletionRequests.filter _) = _
      rw [completeRequest_filter_ne _ _ _ _ hk, (H.1 _ _ _ hok).1,
        setRequestStatus_filter_ne _ _ _ _ hk]
    · rename_i dbE herr
      show ((setRequestStatus dbE r.id "pending").accountDeletionRequests.filter _) = _
      rw [setRequestStatus_filter_ne _ _ _ _ hk, (H.2 _ _ _ herr).1,
        setRequestStatus_filter_ne _ _ _ _ hk]

theorem processLoop_cookie (cascade : DB → Nat → Except DB DB)
    (H : reqCascadeFrame cascade) (now : Nat) :
    ∀ (ss : List AccountDeletionRequest) (st : ProcState),
      (processLoop cascade now st ss).db.cookieConsent = st.db.cookieConsent := by
  intro ss
  induction ss with
  | nil => intro st; rfl
  | cons r rest ih =>
    intro st
    show (processLoop cascade now (processOne cascade now st r) rest).db.cookieConsent = _
    rw [ih, processOne_cookie cascade H]

theorem processLoop_filter_ne (cascade : DB → Nat → Except DB DB)
    (H : reqCascadeFrame cascade) (now : Nat) (k : Nat) :
    ∀ (ss : List AccountDeletionRequest) (st : ProcState),
      (∀ s ∈ ss, s.id ≠ k) →
      (processLoop cascade now st ss).db.accountDeletionRequests.filter
          (fun q => q.id == k) =
        st.db.accountDeletionRequests.filter (fun q => q.id == k) := by
  intro ss
  induction ss with
  | nil => intro st _; rfl
  | cons r rest ih =>
    intro st hss
    show (processLoop cascade now (processOne cascade now st r)
        rest).db.accountDeletionRequests.filter _ = _
    rw [ih _ (fun s hs => hss s (List.mem_cons_of_mem r hs)),
      processOne_filter_ne cascade H now st r k (hss r (List.mem_cons_self r rest))]

theorem processLoop_append (cascade : DB → Nat → Except DB DB) (now : Nat) :
    ∀ (l1 l2 : List AccountDeletionRequest) (st : ProcState),
      processLoop cascade now st (l1 ++ l2) =
        processLoop cascade now (processLoop cascade now st l1) l2 := by
  intro l1
  induction l1 with
  | nil => intro l2 st; rfl
  | cons r rest ih =>
    intro l2 st
    show processLoop cascade now (processOne cascade now st r) (rest ++ l2) = _
    rw [ih]
    rfl

theorem processOne_real_self (now : Nat) (st : ProcState)
    (r : AccountDeletionRequest) :
    (processOne agentCascade now st r).db.accountDeletionRequests.filter
        (fun q => q.id == r.id) =
      (st.db.accountDeletionRequests.filter (fun q => q.id == r.id)).map
        (fun q => { q with status := "completed", processedAt := some now }) := by
  simp only [processOne, agentCascade]
  split
  · show ((completeRequest (setRequestStatus st.db r.id "processing") r.id
        now).accountDeletionRequests.filter _) = _
    rw [completeRequest_filter_self, setRequestStatus_filter_self, List.map_map]
    rfl
  · show ((completeRequest
        (deleteAgentData (setRequestStatus st.db r.id "processing") r.agentId).1
        r.id now).accountDeletionRequests.filter _) = _
    rw [completeRequest_filter_self, deleteAgentData_accountDeletionRequests,
      setRequestStatus_filter_self, List.map_map]
    rfl

/-- The ids of the requests the processor selects are pairwise distinct when
the table's ids are. -/
theorem selectPendingDeletions_nodup (now : Nat) (db : DB)
    (hnodup : (db.accountDeletionRequests.map (fun q => q.id)).Nodup) :
    ((selectPendingDeletions now db).map (fun q => q.id)).Nodup := by
  apply List.Nodup.sublist _ hnodup
  apply List.Sublist.map
  exact List.Sublist.trans (List.take_sublist _ _) (List.filter_sublist _)

/-- After a full run of the real processor, every selected request's row is
completed with `processedAt` set. -/
theorem processRun_completes (now : Nat) (db : DB)
    (hnodup : (db.accountDeletionRequests.map (fun q => q.id)).Nodup) :
    ∀ r ∈ selectPendingDeletions now db,
      ∃ row ∈ (processPendingDeletionsRun now db).1.db.accountDeletionRequests,
        row.id = r.id ∧ row.status = "completed" ∧ row.processedAt = some now := by
  intro r hr
  have hne : ¬ ((selectPendingDeletions now db).length = 0) := by
    intro h0
    rw [List.length_eq_zero] at h0
    rw [h0] at hr
    exact absurd hr (List.not_mem_nil r)
  obtain ⟨l1, l2, hsplit⟩ := List.append_of_mem hr
  have hselnodup := selectPendingDeletions_nodup now db hnodup
  rw [hsplit] at hselnodup
  rw [List.map_append, List.map_cons] at hselnodup
  have hnodup2 := List.nodup_append.mp hselnodup
  have hl1 : ∀ s ∈ l1, s.id ≠ r.id := by
    intro s hs hcon
    exact hnodup2.2.2 (List.mem_map_of_mem _ hs) (by rw [hcon]; exact List.mem_cons_self _ _)
  have hl2 : ∀ s ∈ l2, s.id ≠ r.id := by
    intro s hs hcon
    have := (List.nodup_cons.mp hnodup2.2.1).1
    exact this (by rw [← hcon]; exact List.mem_map_of_mem _ hs)
  have hstate : (processPendingDeletionsRun now db).1 =
      processLoop agentCascade now
        { db := db, processedCount := 0, cascadeCalls := [] }
        (selectPendingDeletions now db) := by
    simp only [processPendingDeletionsRun, processPendingDeletions, if_neg hne]
  have hfilter : (processPendingDeletionsRun now db).1.db.accountDeletionRequests.filter
      (fun q => q.id == r.id) =
      (db.accountDeletionRequests.filter (fun q => q.id == r.id)).map
        (fun q => { q with status := "completed", processedAt := some now }) := by
    rw [hstate, hsplit, processLoop_append]
    have h1 : (processLoop agentCascade now
        { db := db, processedCount := 0, cascadeCalls := [] }
        l1).db.accountDeletionRequests.filter (fun q => q.id == r.id) =
        db.accountDeletionRequests.filter (fun q => q.id == r.id) :=
      processLoop_filter_ne agentCascade agentCascade_frame now r.id l1 _ hl1
    show (processLoop agentCascade now (processOne agentCascade now
        (processLoop agentCascade now
          { db := db, processedCount := 0, cascadeCalls := [] } l1) r)
        l2).db.accountDeletionRequests.filter _ = _
    rw [processLoop_filter_ne agentCascade agentCascade_frame now r.id l2 _ hl2,
      processOne_real_self, h1]
  have hrmem : r ∈ db.accountDeletionRequests.filter (fun q => q.id == r.id) := by
    apply List.mem_filter.mpr
    refine ⟨?_, by simp⟩
    exact (List.mem_filter.mp (List.mem_of_mem_take hr)).1
  refine ⟨{ r with status := "completed", processedAt := some now }, ?_, rfl, rfl, rfl⟩
  have : { r with status := "completed", processedAt := some now } ∈
      (processPendingDeletionsRun now db).1.db.accountDeletionRequests.filter
        (fun q => q.id == r.id) := by
    rw [hfilter]
    exact List.mem_map_of_mem _ hrmem
  exact (List.mem_filter.mp this).1

/-- **C10** — The agent cascade leaves the `accountDeletionRequests` and
`cookieConsent` tables untouched; after the processor deletes an agent, the
deletion-request row itself survives with status completed and `processedAt`
set, and every cookie-consent record remains in the store. -/
theorem C10_deletion_request_and_consent_survive (now : Nat) (db : DB)
    (hnodup : (db.accountDeletionRequests.map (fun q => q.id)).Nodup) :
    (∀ (d : DB) (a : Nat),
      (deleteAgentData d a).1.accountDeletionRequests = d.accountDeletionRequests ∧
      (deleteAgentData d a).1.cookieConsent = d.cookieConsent) ∧
    (processPendingDeletionsRun now db).1.db.cookieConsent = db.cookieConsent ∧
    (∀ r ∈ selectPendingDeletions now db,
      ∃ row ∈ (processPendingDeletionsRun now db).1.db.accountDeletionRequests,
        row.id = r.id ∧ row.status = "completed" ∧ row.processedAt = some now) := by
  refine ⟨?_, ?_, processRun_completes now db hnodup⟩
  · intro d a
    exact ⟨deleteAgentData_accountDeletionRequests d a, deleteAgentData_cookieConsent d a⟩
  · by_cases h0 : (selectPendingDeletions now db).length = 0
    · simp [processPendingDeletionsRun, processPendingDeletions, h0]
    · simp only [processPendingDeletionsRun, processPendingDeletions, if_neg h0]
      exact processLoop_cookie agentCascade agentCascade_frame now _ _

/-! ## The transient-failure path -/

/-- A cascade that models "the walk throws on every call", leaving the
request and agent tables as they were at the throw. -/
def alwaysThrows (cascade : DB → Nat → Except DB DB) : Prop :=
  ∀ d x, ∃ dE, cascade d x = .error dE ∧
    dE.accountDeletionRequests = d.accountDeletionRequests ∧
    dE.agents = d.agents

theorem processOne_err_agents {cascade : DB → Nat → Except DB DB}
    (H : alwaysThrows cascade) (now : Nat) (st : ProcState)
    (r : AccountDeletionRequest) :
    (processOne cascade now st r).db.agents = st.db.agents := by
  simp only [processOne]
  split
  · rfl
  · split
    · rename_i db2 hok
      obtain ⟨dE, heq, -, -⟩ := H _ r.agentId
      rw [heq] at hok
      cases hok
    · rename_i dbE herr
      obtain ⟨dE, heq, hreq, hag⟩ := H _ r.agentId
      rw [heq] at herr
      cases herr
      exact hag

theorem processOne_err_count {cascade : DB → Nat → Except DB DB}
    (H : alwaysThrows cascade) (now : Nat) (st : ProcState)
    (r : AccountDeletionRequest) :
    (processOne cascade now st r).processedCount = st.processedCount := by
  simp only [processOne]
  split
  · rfl
  · split
    · rename_i db2 hok
      obtain ⟨dE, heq, -, -⟩ := H _ r.agentId
      rw [heq] at hok
      cases hok
    · rfl

theorem processOne_err_filter_ne {cascade : DB → Nat → Except DB DB}
    (H : alwaysThrows cascade) (now : Nat) (st : ProcState)
    (r : AccountDeletionRequest) (k : Nat) (hk : r.id ≠ k) :
    (processOne cascade now st r).db.accountDeletionRequests.filter
        (fun q => q.id == k) =
      st.db.accountDeletionRequests.filter (fun q => q.id == k) := by
  simp only [processOne]
  split
  · show ((completeRequest (setRequestStatus st.db r.id "processing") r.id
        now).accountDeletionRequests.filter _) = _
    rw [completeRequest_filter_ne _ _ _ _ hk, setRequestStatus_filter_ne _ _ _ _ hk]
  · split
    · rename_i db2 hok
      obtain ⟨dE, heq, -, -⟩ := H _ r.agentId
      rw [heq] at hok
      cases hok
    · rename_i dbE herr
      obtain ⟨dE, heq, hreq, -⟩ := H _ r.agentId
      rw [heq] at herr
      cases herr
      show ((setRequestStatus dbE r.id "pending").accountDeletionRequests.filter _) = _
      rw [setRequestStatus_filter_ne _ _ _ _ hk, hreq,
        setRequestStatus_filter_ne _ _ _ _ hk]

theorem processOne_err_self {cascade : DB → Nat → Except DB DB}
    (H : alwaysThrows cascade) (now : Nat) (st : ProcState)
    (r : AccountDeletionRequest)
    (hpres : ∃ ag ∈ st.db.agents, ag.id = r.agentId) :
    (processOne cascade now st r).db.accountDeletionRequests.filter
        (fun q => q.id == r.id) =
      (st.db.accountDeletionRequests.filter (fun q => q.id == r.id)).map
        (fun q => { q with status := "pending" }) := by
  simp only [processOne]
  split
  · rename_i hfind
    obtain ⟨ag, hag, hid⟩ := hpres
    have := List.find?_eq_none.mp hfind ag hag
    simp [hid] at this
  · split
    · rename_i db2 hok
      obtain ⟨dE, heq, -, -⟩ := H _ r.agentId
      rw [heq] at hok
      cases hok
    · rename_i dbE herr
      obtain ⟨dE, heq, hreq, -⟩ := H _ r.agentId
      rw [heq] at herr
      cases herr
      show ((setRequestStatus dbE r.id "pending").accountDeletionRequests.filter _) = _
      rw [setRequestStatus_filter_self, hreq, setRequestStatus_filter_self,
        List.map_map]
      rfl

theorem processLoop_err_agents {cascade : DB → Nat → Except DB DB}
    (H : alwaysThrows cascade) (now : Nat) :
    ∀ (ss : List AccountDeletionRequest) (st : ProcState),
      (processLoop cascade now st ss).db.agents = st.db.agents := by
  intro ss
  induction ss with
  | nil => intro st; rfl
  | cons r rest ih =>
    intro st
    show (processLoop cascade now (processOne cascade now st r) rest).db.agents = _
    rw [ih, processOne_err_agents H]

theorem processLoop_err_count {cascade : DB → Nat → Except DB DB}
    (H : alwaysThrows cascade) (now : Nat) :
    ∀ (ss : List AccountDeletionRequest) (st : ProcState),
      (processLoop cascade now st ss).processedCount = st.processedCount := by
  intro ss
  induction ss with
  | nil => intro st; rfl
  | cons r rest ih =>
    intro st
    show (processLoop cascade now (processOne cascade now st r) rest).processedCount = _
    rw [ih, processOne_err_count H]

theorem processLoop_err_filter_ne {cascade : DB → Nat → Except DB DB}
    (H : alwaysThrows cascade) (now : Nat) (k : Nat) :
    ∀ (ss : List AccountDeletionRequest) (st : ProcState),
      (∀ s ∈ ss, s.id ≠ k) →
      (processLoop cascade now st ss).db.accountDeletionRequests.filter
          (fun q => q.id == k) =
        st.db.accountDeletionRequests.filter (fun q => q.id == k) := by
  intro ss
  induction ss with
  | nil => intro st _; rfl
  | cons r rest ih =>
    intro st hss
    show (processLoop cascade now (processOne cascade now st r)
        rest).db.accountDeletionRequests.filter _ = _
    rw [ih _ (fun s hs => hss s (List.mem_cons_of_mem r hs)),
      processOne_err_filter_ne H now st r k (hss r (List.mem_cons_self r rest))]

/-- One real-cascade iteration can only remove agents and only records a
cascade call for an agent id present in the store. -/
theorem processOne_real_pres (now : Nat) (x : Nat) (st : ProcState)
    (r : AccountDeletionRequest)
    (habs : ∀ ag ∈ st.db.agents, ag.id ≠ x)
    (hcall : x ∉ st.cascadeCalls) :
    (∀ ag ∈ (processOne agentCascade now st r).db.agents, ag.id ≠ x) ∧
    x ∉ (processOne agentCascade now st r).cascadeCalls := by
  simp only [processOne, agentCascade]
  split
  · exact ⟨habs, hcall⟩
  · rename_i ag hfind
    constructor
    · intro ag2 hag2
      have hmem : ag2 ∈ (deleteAgentData (setRequestStatus st.db r.id "processing")
          r.agentId).1.agents := hag2
      rw [deleteAgentData_agents] at hmem
      exact habs ag2 (mem_removeById Agent.id _ hmem).1
    · intro hx
      rcases List.mem_append.mp hx with hx2 | hx2
      · exact hcall hx2
      · have hag : ag ∈ st.db.agents := List.mem_of_find?_eq_some hfind
        have hid := List.find?_some hfind
        have hid2 : ag.id = r.agentId := beq_iff_eq.mp hid
        exact habs ag hag (hid2.trans (List.mem_singleton.mp hx2).symm)

theorem processLoop_real_pres (now : Nat) (x : Nat) :
    ∀ (ss : List AccountDeletionRequest) (st : ProcState),
      (∀ ag ∈ st.db.agents, ag.id ≠ x) → x ∉ st.cascadeCalls →
      (∀ ag ∈ (processLoop agentCascade now st ss).db.agents, ag.id ≠ x) ∧
      x ∉ (processLoop agentCascade now st ss).cascadeCalls := by
  intro ss
  induction ss with
  | nil => intro st habs hcall; exact ⟨habs, hcall⟩
  | cons r rest ih =>
    intro st habs hcall
    have h1 := processOne_real_pres now x st r habs hcall
    exact ih _ h1.1 h1.2

/-- **C3** — In `processPendingDeletions`: if the cascade throws, the
processor catches the exception (the run still returns, with `processed`
count 0 when every cascade call throws) and reverts each such request to
`pending`, never to a failed state; and when the agent row is already absent
at lookup, the request is marked completed immediately and the cascade is
never invoked for that agent. -/
theorem C3_transient_failure_and_absent_agent (now : Nat) (db : DB)
    (hnodup : (db.accountDeletionRequests.map (fun q => q.id)).Nodup) :
    (∀ cascade : DB → Nat → Except DB DB, alwaysThrows cascade →
      (processPendingDeletions cascade now db).2.processed = 0 ∧
      ∀ r ∈ selectPendingDeletions now db,
        (∃ ag ∈ db.agents, ag.id = r.agentId) →
        ∃ row ∈ (processPendingDeletions cascade now db).1.db.accountDeletionRequests,
          row.id = r.id ∧ row.status = "pending") ∧
    (∀ r ∈ selectPendingDeletions now db,
      (∀ ag ∈ db.agents, ag.id ≠ r.agentId) →
      (∃ row ∈ (processPendingDeletionsRun now db).1.db.accountDeletionRequests,
        row.id = r.id ∧ row.status = "completed" ∧ row.processedAt = some now) ∧
      r.agentId ∉ (processPendingDeletionsRun now db).1.cascadeCalls) := by
  constructor
  · intro cascade H
    constructor
    · by_cases h0 : (selectPendingDeletions now db).length = 0
      · simp [processPendingDeletions, h0]
      · simp only [processPendingDeletions, if_neg h0]
        exact processLoop_err_count H now _ _
    · intro r hr hpres
      have hne : ¬ ((selectPendingDeletions now db).length = 0) := by
        intro h0
        rw [List.length_eq_zero] at h0
        rw [h0] at hr
        exact absurd hr (List.not_mem_nil r)
      obtain ⟨l1, l2, hsplit⟩ := List.append_of_mem hr
      have hselnodup := selectPendingDeletions_nodup now db hnodup
      rw [hsplit, List.map_append, List.map_cons] at hselnodup
      have hnodup2 := List.nodup_append.mp hselnodup
      have hl1 : ∀ s ∈ l1, s.id ≠ r.id := by
        intro s hs hcon
        exact hnodup2.2.2 (List.mem_map_of_mem _ hs)
          (by rw [hcon]; exact List.mem_cons_self _ _)
      have hl2 : ∀ s ∈ l2, s.id ≠ r.id := by
        intro s hs hcon
        exact (List.nodup_cons.mp hnodup2.2.1).1
          (by rw [← hcon]; exact List.mem_map_of_mem _ hs)
      have hstate : (processPendingDeletions cascade now db).1 =
          processLoop cascade now
            { db := db, processedCount := 0, cascadeCalls := [] }
            (selectPendingDeletions now db) := by
        simp only [processPendingDeletions, if_neg hne]
      have hfilter : (processPendingDeletions cascade now
          db).1.db.accountDeletionRequests.filter (fun q => q.id == r.id) =
          (db.accountDeletionRequests.filter (fun q => q.id == r.id)).map
            (fun q => { q with status := "pending" }) := by
        rw [hstate, hsplit, processLoop_append]
        have h1 : (processLoop cascade now
            { db := db, processedCount := 0, cascadeCalls := [] }
            l1).db.accountDeletionRequests.filter (fun q => q.id == r.id) =
            db.accountDeletionRequests.filter (fun q => q.id == r.id) :=
          processLoop_err_filter_ne H now r.id l1 _ hl1
        have hpres2 : ∃ ag ∈ (processLoop cascade now
            { db := db, processedCount := 0, cascadeCalls := [] }
            l1).db.agents, ag.id = r.agentId := by
          rw [processLoop_err_agents H]
          exact hpres
        show (processLoop cascade now (processOne cascade now
            (processLoop cascade now
              { db := db, processedCount := 0, cascadeCalls := [] } l1) r)
            l2).db.accountDeletionRequests.filter _ = _
        rw [processLoop_err_filter_ne H now r.id l2 _ hl2,
          processOne_err_self H now _ r hpres2, h1]
      have hrmem : r ∈ db.accountDeletionRequests.filter (fun q => q.id == r.id) := by
        apply List.mem_filter.mpr
        refine ⟨?_, by simp⟩
        exact (List.mem_filter.mp (List.mem_of_mem_take hr)).1
      refine ⟨{ r with status := "pending" }, ?_, rfl, rfl⟩
      have : { r with status := "pending" } ∈
          (processPendingDeletions cascade now
            db).1.db.accountDeletionRequests.filter (fun q => q.id == r.id) := by
        rw [hfilter]
        exact List.mem_map_of_mem _ hrmem
      exact (List.mem_filter.mp this).1
  · intro r hr habs
    refine ⟨processRun_completes now db hnodup r hr, ?_⟩
    by_cases h0 : (selectPendingDeletions now db).length = 0
    · simp [processPendingDeletionsRun, processPendingDeletions, h0]
    · simp only [processPendingDeletionsRun, processPendingDeletions, if_neg h0]
      exact (processLoop_real_pres now r.agentId _ _ habs
        (List.not_mem_nil r.agentId)).2

/-! ## The at-most-one-pending invariant -/

/-- Number of pending deletion requests a given agent has. -/
def pendingCount (db : DB) (aid : Nat) : Nat :=
  (db.accountDeletionRequests.filter
    (fun r => r.agentId == aid && r.status == "pending")).length

/-- Pointwise tracking of the request table against its initial value: ids
and owners are unchanged and a row can only be pending now if it was pending
initially. -/
def ReqTrack : List AccountDeletionRequest → List AccountDeletionRequest → Prop
  | [], [] => True
  | x0 :: l0, x :: l =>
    (x.id = x0.id ∧ x.agentId = x0.agentId ∧
      (x.status = "pending" → x0.status = "pending")) ∧ ReqTrack l0 l
  | _, _ => False

theorem ReqTrack_refl : ∀ l, ReqTrack l l := by
  intro l
  induction l with
  | nil => trivial
  | cons x xs ih => exact ⟨⟨rfl, rfl, fun h => h⟩, ih⟩

theorem ReqTrack_map {g : AccountDeletionRequest → AccountDeletionRequest}
    (hg : ∀ x, (g x).id = x.id ∧ (g x).agentId = x.agentId ∧
      ((g x).status = "pending" → x.status = "pending")) :
    ∀ {l0 l}, ReqTrack l0 l → ReqTrack l0 (l.map g) := by
  intro l0
  induction l0 with
  | nil =>
    intro l h
    cases l with
    | nil => trivial
    | cons x xs => exact absurd h (by simp [ReqTrack])
  | cons x0 l0t ih =>
    intro l h
    cases l with
    | nil => exact absurd h (by simp [ReqTrack])
    | cons x xs =>
      obtain ⟨⟨h1, h2, h3⟩, hrest⟩ := h
      refine ⟨⟨?_, ?_, ?_⟩, ih hrest⟩
      · rw [(hg x).1, h1]
      · rw [(hg x).2.1, h2]
      · intro hp
        exact h3 ((hg x).2.2 hp)

/-- The revert-to-pending patch keeps the tracking relation provided every
initial row with the patched id was itself pending. -/
theorem ReqTrack_map_pending (rid : Nat) :
    ∀ {l0 l}, (∀ x0 ∈ l0, x0.id = rid → x0.status = "pending") →
      ReqTrack l0 l →
      ReqTrack l0 (l.map (fun x =>
        if x.id == rid then { x with status := "pending" } else x)) := by
  intro l0
  induction l0 with
  | nil =>
    intro l _ h
    cases l with
    | nil => trivial
    | cons x xs => exact absurd h (by simp [ReqTrack])
  | cons x0 l0t ih =>
    intro l hpend h
    cases l with
    | nil => exact absurd h (by simp [ReqTrack])
    | cons x xs =>
      obtain ⟨⟨h1, h2, h3⟩, hrest⟩ := h
      refine ⟨?_, ih (fun y hy => hpend y (List.mem_cons_of_mem x0 hy)) hrest⟩
      by_cases hc : x.id == rid
      · refine ⟨?_, ?_, ?_⟩
        · simpa [hc] using h1
        · simpa [hc] using h2
        · intro _
          exact hpend x0 (List.mem_cons_self x0 l0t)
            (by rw [← h1]; exact beq_iff_eq.mp hc)
      · refine ⟨?_, ?_, ?_⟩
        · simpa [hc] using h1
        · simpa [hc] using h2
        · simpa [hc] using h3

theorem ReqTrack_count (aid : Nat) :
    ∀ {l0 l}, ReqTrack l0 l →
      (l.filter (fun r => r.agentId == aid && r.status == "pending")).length ≤
        (l0.filter (fun r => r.agentId == aid && r.status == "pending")).length := by
  intro l0
  induction l0 with
  | nil =>
    intro l h
    cases l with
    | nil => simp
    | cons x xs => exact absurd h (by simp [ReqTrack])
  | cons x0 l0t ih =>
    intro l h
    cases l with
    | nil => simp
    | cons x xs =>
      obtain ⟨⟨h1, h2, h3⟩, hrest⟩ := h
      have hcount := ih hrest
      rw [List.filter_cons, List.filter_cons]
      by_cases hx : (x.agentId == aid && x.status == "pending") = true
      · have hx0 : (x0.agentId == aid && x0.status == "pending") = true := by
          have hx' := hx
          simp only [Bool.and_eq_true, beq_iff_eq] at hx'
          simp only [Bool.and_eq_true, beq_iff_eq]
          exact ⟨h2 ▸ hx'.1, h3 hx'.2⟩
        rw [if_pos hx, if_pos hx0]
        simp only [List.length_cons]
        omega
      · rw [if_neg hx]
        by_cases hx0 : (x0.agentId == aid && x0.status == "pending") = true
        · rw [if_pos hx0]
          simp only [List.length_cons]
          omega
        · rw [if_neg hx0]
          exact hcount

theorem ReqTrack_trans_eq {l0 l l2 : List AccountDeletionRequest}
    (h : ReqTrack l0 l) (he : l2 = l) : ReqTrack l0 l2 := he ▸ h

theorem processOne_track (cascade : DB → Nat → Except DB DB)
    (H : reqCascadeFrame cascade) (now : Nat)
    {l0 : List AccountDeletionRequest} (st : ProcState)
    (r : AccountDeletionRequest)
    (hpend : ∀ x0 ∈ l0, x0.id = r.id → x0.status = "pending")
    (htr : ReqTrack l0 st.db.accountDeletionRequests) :
    ReqTrack l0 (processOne cascade now st r).db.accountDeletionRequests := by
  have hproc : ReqTrack l0 (setRequestStatus st.db r.id
      "processing").accountDeletionRequests := by
    apply ReqTrack_map _ htr
    intro x
    by_cases hc : x.id == r.id
    · rw [if_pos hc]
      exact ⟨rfl, rfl, fun h => absurd h (by simp)⟩
    · rw [if_neg hc]
      exact ⟨rfl, rfl, fun h => h⟩
  have hcomplete : ∀ d : DB, ReqTrack l0 d.accountDeletionRequests →
      ReqTrack l0 (completeRequest d r.id now).accountDeletionRequests := by
    intro d hd
    apply ReqTrack_map _ hd
    intro x
    by_cases hc : x.id == r.id
    · rw [if_pos hc]
      exact ⟨rfl, rfl, fun h => absurd h (by simp)⟩
    · rw [if_neg hc]
      exact ⟨rfl, rfl, fun h => h⟩
  simp only [processOne]
  split
  · exact hcomplete _ hproc
  · split
    · rename_i db2 hok
      show ReqTrack l0 (completeRequest db2 r.id now).accountDeletionRequests
      apply hcomplete
      exact ReqTrack_trans_eq hproc (H.1 _ _ _ hok).1
    · rename_i dbE herr
      show ReqTrack l0 (setRequestStatus dbE r.id
        "pending").accountDeletionRequests
      have hE : ReqTrack l0 dbE.accountDeletionRequests :=
        ReqTrack_trans_eq hproc (H.2 _ _ _ herr).1
      exact ReqTrack_map_pending r.id hpend hE

theorem processLoop_track (cascade : DB → Nat → Except DB DB)
    (H : reqCascadeFrame cascade) (now : Nat)
    {l0 : List AccountDeletionRequest} :
    ∀ (ss : List AccountDeletionRequest) (st : ProcState),
      (∀ s ∈ ss, ∀ x0 ∈ l0, x0.id = s.id → x0.status = "pending") →
      ReqTrack l0 st.db.accountDeletionRequests →
      ReqTrack l0 (processLoop cascade now st ss).db.accountDeletionRequests := by
  intro ss
  induction ss with
  | nil => intro st _ htr; exact htr
  | cons r rest ih =>
    intro st hss htr
    exact ih _ (fun s hs => hss s (List.mem_cons_of_mem r hs))
      (processOne_track cascade H now st r (hss r (List.mem_cons_self r rest)) htr)

/-- **C4** — At most one pending deletion request per agent:
`requestAccountDeletion` rejects a request (inserting nothing) whenever a
pending one exists for the authenticated agent, and the invariant
`pendingCount ≤ 1` is preserved by `requestAccountDeletion`,
`cancelAccountDeletion`, and `processPendingDeletions` — including the
error path that reverts a processing request back to pending — for any
cascade that leaves the request table alone. -/
theorem C4_at_most_one_pending (hash : String → String) (now newId : Nat)
    (db : DB) (k : String) (reason creason : Option String)
    (cascade : DB → Nat → Except DB DB) :
    (∀ agent : Agent, authenticateAgent hash db k = some agent →
      (∃ q ∈ db.accountDeletionRequests,
        q.agentId = agent.id ∧ q.status = "pending") →
      requestAccountDeletion hash now newId db k reason =
        .error "A deletion request is already pending for this account") ∧
    (∀ db2 res, (∀ aid, pendingCount db aid ≤ 1) →
      requestAccountDeletion hash now newId db k reason = .ok (db2, res) →
      ∀ aid, pendingCount db2 aid ≤ 1) ∧
    (∀ db2 msg, (∀ aid, pendingCount db aid ≤ 1) →
      cancelAccountDeletion hash now db k creason = .ok (db2, msg) →
      ∀ aid, pendingCount db2 aid ≤ 1) ∧
    ((db.accountDeletionRequests.map (fun q => q.id)).Nodup →
      reqCascadeFrame cascade →
      (∀ aid, pendingCount db aid ≤ 1) →
      ∀ aid, pendingCount (processPendingDeletions cascade now db).1.db aid ≤ 1) := by
  refine ⟨?_, ?_, ?_, ?_⟩
  · intro agent hauth ⟨q, hq, hqa, hqs⟩
    have hqf : q ∈ db.accountDeletionRequests.filter
        (fun r => r.agentId == agent.id && r.status == "pending") :=
      List.mem_filter.mpr ⟨hq, by simp [hqa, hqs]⟩
    simp only [requestAccountDeletion, hauth]
    cases hh : (db.accountDeletionRequests.filter
        (fun r => r.agentId == agent.id && r.status == "pending")).head? with
    | none =>
      rw [List.head?_eq_none_iff] at hh
      rw [hh] at hqf
      exact absurd hqf (List.not_mem_nil q)
    | some q2 => rfl
  · intro db2 res hinv hok aid
    cases hauth : authenticateAgent hash db k with
    | none => exact absurd hok (by simp [requestAccountDeletion, hauth])
    | some agent =>
      cases hh : (db.accountDeletionRequests.filter
          (fun r => r.agentId == agent.id && r.status == "pending")).head? with
      | some q2 => exact absurd hok (by simp [requestAccountDeletion, hauth, hh])
      | none =>
        simp only [requestAccountDeletion, hauth, hh, Except.ok.injEq,
          Prod.mk.injEq] at hok
        obtain ⟨hdb, -⟩ := hok
        subst hdb
        show ((db.accountDeletionRequests ++ [_]).filter _).length ≤ 1
        rw [List.filter_append]
        by_cases haid : agent.id = aid
        · have hz2 : (db.accountDeletionRequests.filter
              (fun r => r.agentId == aid && r.status == "pending")).length = 0 := by
            rw [List.head?_eq_none_iff] at hh
            rw [← haid, hh]
            rfl
          rw [List.length_append, hz2]
          simp [haid]
        · have h1 := hinv aid
          rw [List.length_append]
          simp only [pendingCount] at h1
          simpa [List.filter_cons, haid] using h1
  · intro db2 msg hinv hok aid
    cases hauth : authenticateAgent hash db k with
    | none => exact absurd hok (by simp [cancelAccountDeletion, hauth])
    | some agent =>
      cases hh : (db.accountDeletionRequests.filter
          (fun r => r.agentId == agent.id && r.status == "pending")).head? with
      | none => exact absurd hok (by simp [cancelAccountDeletion, hauth, hh])
      | some pr =>
        simp only [cancelAccountDeletion, hauth, hh, Except.ok.injEq,
          Prod.mk.injEq] at hok
        obtain ⟨hdb, -⟩ := hok
        subst hdb
        show ((db.accountDeletionRequests.map _).filter _).length ≤ 1
        calc ((db.accountDeletionRequests.map _).filter _).length
            ≤ (db.accountDeletionRequests.filter
                (fun r => r.agentId == aid && r.status == "pending")).length := by
              apply length_filter_map_le
              intro x hx
              by_cases hc : x.id == pr.id
              · rw [if_pos hc] at hx
                simp only [Bool.and_eq_true, beq_iff_eq] at hx
                exact absurd hx.2 (by simp)
              · rw [if_neg hc] at hx
                exact hx
          _ ≤ 1 := hinv aid
  · intro hnodup H hinv aid
    by_cases h0 : (selectPendingDeletions now db).length = 0
    · simp only [processPendingDeletions, if_pos h0]
      exact hinv aid
    · simp only [processPendingDeletions, if_neg h0]
      have hpendAll : ∀ s ∈ selectPendingDeletions now db,
          ∀ x0 ∈ db.accountDeletionRequests, x0.id = s.id →
            x0.status = "pending" := by
        intro s hs x0 hx0 hid
        have hsmem := List.mem_of_mem_take hs
        have hs2 := List.mem_filter.mp hsmem
        have hx0s : x0 = s :=
          List.inj_on_of_nodup_map hnodup hx0 hs2.1 hid
        rw [hx0s]
        have hs3 := hs2.2
        simp only [Bool.and_eq_true, beq_iff_eq] at hs3
        exact hs3.1
      have htr := processLoop_track cascade H now
        (selectPendingDeletions now db)
        { db := db, processedCount := 0, cascadeCalls := [] }
        hpendAll (ReqTrack_refl db.accountDeletionRequests)
      exact le_trans (ReqTrack_count aid htr) (hinv aid)

/-! ## Concrete scenarios instantiating the hypotheses of the main theorems -/

/-- A post soft-deleted at time 0, owned by agent 1. -/
def postW : Post := { id := 10, agentId := 1, deletedAt := some 0 }

/-- One moment strictly past the 30-day purge horizon for `postW`. -/
def nowC2 : Nat := 30 * DAYS + 1

/-- Store with `postW`, a comment on it, and votes on both. -/
def dbC2 : DB :=
  { emptyDB with
    posts := [postW]
    comments := [{ id := 21, postId := 10, agentId := 2 }]
    votes := [{ id := 31, agentId := 2, targetType := "post", targetId := "10" },
              { id := 32, agentId := 2, targetType := "comment", targetId := "21" }] }

/-- A live agent row with id 1. -/
def agentW : Agent :=
  { id := 1, name := "A", handle := "a", entityName := "E", bio := none,
    avatarUrl := none, email := none, emailVerified := none,
    emailVerificationCode := none, emailVerificationExpiresAt := none,
    webhookUrl := none, apiKey := "k", apiKeyPfx := "p", lastActiveAt := 0,
    anonymizedAt := none, deletedAt := none }

/-- A deletion request of `agentW`, pending and due at time 0. -/
def reqW : AccountDeletionRequest :=
  { id := 50, agentId := 1, status := "pending", reason := none,
    requestedAt := 0, scheduledFor := 0, processedAt := none,
    cancelledAt := none, cancellationReason := none, createdAt := 0 }

/-- Store with `agentW` and their due pending deletion request. -/
def dbPend : DB :=
  { emptyDB with agents := [agentW], accountDeletionRequests := [reqW] }

/-- An agent inactive since time 0, never anonymized. -/
def agentOld : Agent :=
  { id := 7, name := "Old", handle := "old", entityName := "E", bio := none,
    avatarUrl := none, email := none, emailVerified := none,
    emailVerificationCode := none, emailVerificationExpiresAt := none,
    webhookUrl := none, apiKey := "k7", apiKeyPfx := "p7", lastActiveAt := 0,
    anonymizedAt := none, deletedAt := none }

/-- One moment strictly past the two-year inactivity horizon for `agentOld`. -/
def nowC7 : Nat := 2 * 365 * DAYS + 1

/-- Store holding just the long-inactive `agentOld`. -/
def dbC7 : DB := { emptyDB with agents := [agentOld] }

/-- Witness: the purge selection hypothesis holds at `postW` in `dbC2`, and
the theorem's first conjunct yields its stale soft-deletion timestamp. -/
theorem C2_post_purge_witness :
    ∃ t, postW.deletedAt = some t ∧
      t < nowC2 - RETENTION_PERIODS.softDeletedPosts :=
  (C2_post_purge_cascade nowC2 dbC2 postW (by decide)).1

/-- Witness: with an always-throwing cascade over `dbPend` (distinct request
ids hold by computation) the processor reports zero processed requests. -/
theorem C3_transient_failure_witness :
    (processPendingDeletions (fun d _ => Except.error d) 1 dbPend).2.processed = 0 :=
  ((C3_transient_failure_and_absent_agent 1 dbPend (by decide)).1
    (fun d _ => Except.error d) (fun d x => ⟨d, rfl, rfl, rfl⟩)).1

/-- Witness: `agentOld` is selected at `nowC7`, and the anonymization run
leaves a row with its id carrying exactly the anonymized field values. -/
theorem C7_anonymization_witness :
    ∃ x ∈ (anonymizeInactiveAgents nowC7 dbC7).1.agents,
      x.id = agentOld.id ∧ AnonymizedFields nowC7 agentOld.id x :=
  (C7_anonymization_irreversibility nowC7 dbC7 agentOld (by decide)).1

/-- Witness: in the real processing run over `dbPend`, `reqW` ends completed
with its processing timestamp. -/
theorem C10_survival_witness :
    ∃ row ∈ (processPendingDeletionsRun 1 dbPend).1.db.accountDeletionRequests,
      row.id = reqW.id ∧ row.status = "completed" ∧ row.processedAt = some 1 :=
  (C10_deletion_request_and_consent_survive 1 dbPend (by decide)).2.2
    reqW (by decide)

end LinkClaws
